import Mathlib

/-!
Verification development for the OlicanaPlot plugin suite: a shallow
embedding, in Lean 4, of the plugins' IPC codec (`ipc_helpers.py`), the
SQLite-backed range-aware climate cache (`cache.py`), the search history
(`history.py`), and the request/workflow loops of the two plugin processes
(`msc-climate-data/main.py` and `open_meteo_climate_downloader/main.py`),
together with theorems settling the specification's claims about them.

Conventions of the embedding:
* Python `float` values are carried around by the code but never computed
  with (they are cached, serialised, and copied); they are modelled by the
  opaque stand-in type `Flt := Int`.  Where the source does perform
  floating-point work (polars `mean`, `rolling_mean`, `datetime.timestamp`,
  `f"{x:.2f}"` formatting), the operation is taken as a parameter of the
  model (a field of the environment record), since IEEE-754 arithmetic is
  outside the scope of a shallow embedding.
* SQLite tables are modelled as Lean lists of rows; `AUTOINCREMENT` is a
  counter in the store record.  `datetime.date.today()` and the derived
  7-day source-lag cutoff are modelled by an integer parameter `lagInt`
  holding the `YYYYMMDD` integer of (today − 7 days).
* A Python function that can raise an uncaught exception is modelled with
  an `Option` result, `none` meaning the exception escaped.
* Byte streams are `List Nat` (each element < 256), character streams are
  `List Char`.
-/

/-- Opaque stand-in for a Python `float` payload (commonly its IEEE-754 bit
pattern); the embedded code moves these values around without arithmetic. -/
abbrev Flt := Int

/-! ## Small Python-flavoured utilities -/

/-- The character of a decimal digit. -/
def digitCh (d : Nat) : Char := Char.ofNat (48 + d)

/-- Decimal digit characters of `n`, most significant first, by repeated
division; the first argument is recursion fuel (any amount above the digit
count works, and `natChars` supplies `n + 1`). -/
def natCharsAux : Nat → Nat → List Char
  | 0, _ => []
  | fuel + 1, n => if n < 10 then [digitCh n] else natCharsAux fuel (n / 10) ++ [digitCh (n % 10)]

/-- `str(n)` for a non-negative integer. -/
def natChars (n : Nat) : List Char := natCharsAux (n + 1) n

/-- The ASCII decimal digit test used by the numeric scanners. -/
def isDig (c : Char) : Bool := 48 ≤ c.toNat && c.toNat ≤ 57

/-- Value of a non-empty, all-digit character list, as `int()` computes it.
Returns `none` when the list is empty or holds a non-digit (in Python,
`int()` raises `ValueError`; signs, blanks and underscores, which `int()`
would also accept, are outside the model). -/
def pyIntDigits (cs : List Char) : Option Nat :=
  if cs ≠ [] ∧ cs.all isDig then
    some (cs.foldl (fun a c => a * 10 + (c.toNat - 48)) 0)
  else none

/-- Zero-pad a digit string on the left to width `w` (the `f"{n:0wd}"` format). -/
def padZero (w : Nat) (cs : List Char) : List Char :=
  List.replicate (w - cs.length) '0' ++ cs

/-- Lexicographic (code-point) strict order on character lists, the order
Python uses to compare `str` values. -/
def lexLt : List Char → List Char → Bool
  | [], [] => false
  | [], _ :: _ => true
  | _ :: _, [] => false
  | a :: as, b :: bs =>
    if a.toNat < b.toNat then true
    else if b.toNat < a.toNat then false
    else lexLt as bs

/-- Python's `a < b` on strings. -/
def pyStrLt (a b : String) : Bool := lexLt a.data b.data

/-- Python's `a >= b` on strings (totality of the code-point order makes it
the negation of `a < b`). -/
def pyStrGe (a b : String) : Bool := !pyStrLt a b

/-- Python's `a <= b` on strings. -/
def pyStrLe (a b : String) : Bool := pyStrLt a b || a.data == b.data

/-- Whitespace for `str.strip()` (the ASCII white space characters). -/
def isPySpace (c : Char) : Bool :=
  c == ' ' || c == '\t' || c == '\n' || c == '\r' || c == '\x0b' || c == '\x0c'

/-- `str.strip()` on a character list: drop whitespace from both ends. -/
def stripChars (cs : List Char) : List Char :=
  ((cs.dropWhile isPySpace).reverse.dropWhile isPySpace).reverse

/-- `str.strip()`. -/
def pyStrip (s : String) : String := ⟨stripChars s.data⟩

/-- `sep.join(xs)`. -/
def pyJoin (sep : String) : List String → String
  | [] => ""
  | [x] => x
  | x :: xs => x ++ sep ++ pyJoin sep xs

/-- `s[start:]`. -/
def pySliceFrom (s : String) (start : Nat) : String := ⟨s.data.drop start⟩

/-- `s[start:start+len]`. -/
def pySlice (s : String) (start len : Nat) : String := ⟨(s.data.drop start).take len⟩

/-- Python's `s.split("_")` on the character list of a series id. -/
def splitUnd : List Char → List (List Char)
  | [] => [[]]
  | c :: r =>
    if c == '_' then [] :: splitUnd r
    else
      match splitUnd r with
      | s :: ss => (c :: s) :: ss
      | [] => [[c]]

/-- `series_id.split("_")`. -/
def pySplitUnderscore (s : String) : List String := (splitUnd s.data).map (fun l => ⟨l⟩)

/-- Ordered-dictionary lookup (`d.get(k)` / `d[k]` on a Python `dict`,
modelled as an insertion-ordered association list). -/
def dictGet {α : Type} (m : List (String × α)) (k : String) : Option α :=
  (m.find? (fun p => p.1 == k)).map (fun p => p.2)

/-- Ordered-dictionary assignment `d[k] = v`: overwrite in place when the key
exists, append otherwise (Python dicts keep first-insertion order). -/
def dictSet {α : Type} (m : List (String × α)) (k : String) (v : α) : List (String × α) :=
  if m.any (fun p => p.1 == k) then m.map (fun p => if p.1 == k then (k, v) else p)
  else m ++ [(k, v)]

/-! ## The range-aware cache (`open_meteo_climate_downloader/cache.py`)

`ClimateCache` wraps an SQLite file with two tables:

    cities (id INTEGER PRIMARY KEY AUTOINCREMENT, name TEXT UNIQUE, lat REAL, lng REAL)
    daily_data (city_id INTEGER, date INTEGER, tmean REAL, tmin REAL, tmax REAL,
                PRIMARY KEY (city_id, date)) WITHOUT ROWID

modelled as two row lists plus the autoincrement counter. -/

/-- A row of the `cities` table. -/
structure CityRow where
  id : Nat
  name : String
  lat : Flt
  lng : Flt
deriving DecidableEq

/-- A row of the `daily_data` table; the `REAL` columns are nullable. -/
structure DailyRow where
  cityId : Nat
  dateInt : Nat
  tmean : Option Flt
  tmin : Option Flt
  tmax : Option Flt
deriving DecidableEq

/-- The cache database state. -/
structure Store where
  cities : List CityRow
  nextId : Nat
  daily : List DailyRow
deriving DecidableEq

/-- `SELECT * FROM cities WHERE name = ?` (first match; `name` is UNIQUE). -/
def lookupCity (st : Store) (name : String) : Option CityRow :=
  st.cities.find? (fun c => c.name == name)

/-- `ClimateCache._get_city_id`. -/
def getCityId (st : Store) (name : String) : Option Nat :=
  (lookupCity st name).map (fun c => c.id)

/-- `ClimateCache.save_city`: upsert by the natural key `name`
(`INSERT ... ON CONFLICT(name) DO UPDATE SET lat, lng`), then
`SELECT id FROM cities WHERE name = ?`.  Returns the id and the new store. -/
def save_city (st : Store) (name : String) (lat lng : Flt) : Nat × Store :=
  match lookupCity st name with
  | some c =>
    (c.id,
     { st with cities := st.cities.map (fun r => if r.name == name then { r with lat := lat, lng := lng } else r) })
  | none =>
    (st.nextId,
     { st with cities := st.cities ++ [⟨st.nextId, name, lat, lng⟩], nextId := st.nextId + 1 })

/-- `ClimateCache.get_city_location`. -/
def get_city_location (st : Store) (name : String) : Option (Flt × Flt) :=
  (lookupCity st name).map (fun c => (c.lat, c.lng))

/-- The `YYYYMMDD` integer of a date string: `int(s.replace("-", ""))`.
`none` models the `ValueError` that `int()` raises on a malformed string. -/
def dateKey (s : String) : Option Nat :=
  pyIntDigits (s.data.filter (fun c => c != '-'))

/-- The `date` values cached for one city (`SELECT date FROM daily_data WHERE city_id = ?`). -/
def cityDates (st : Store) (cid : Nat) : List Nat :=
  (st.daily.filter (fun d => d.cityId == cid)).map (fun d => d.dateInt)

/-- `ClimateCache.has_date_range`.  `lagInt` is the `YYYYMMDD` integer of
(today − 7 days), the source-lag cutoff the method computes from
`datetime.date.today()`.  The outer `Option` is `none` when `int()` raises on
a malformed date argument.  Mirrors the source: unknown city → `False`;
`MIN(date)`/`MAX(date)` NULL (no rows) → `False`; Python's truthiness test
`not row[0] or not row[1]` additionally treats a `0` date as absent; else
compare `row[0] <= start_int and row[1] >= min(end_int, lag_int)`. -/
def has_date_range (lagInt : Nat) (st : Store) (cityName startDate endDate : String) : Option Bool :=
  match lookupCity st cityName with
  | none => some false
  | some c =>
    match dateKey startDate, dateKey endDate with
    | some startInt, some endInt =>
      match (cityDates st c.id).min?, (cityDates st c.id).max? with
      | some mn, some mx =>
        if mn = 0 ∨ mx = 0 then some false
        else some (decide (mn ≤ startInt) && decide (min endInt lagInt ≤ mx))
      | _, _ => some false
    | _, _ => none

/-- A row of the polars frame `get_daily_data` returns (the `DAILY_SCHEMA`). -/
structure DailyRec where
  city_name : String
  date : String
  year : Nat
  month : Nat
  day : Nat
  tmean : Option Flt
  tmin : Option Flt
  tmax : Option Flt
deriving DecidableEq

/-- Rebuild one output record from a `daily_data` row, as the source does:
`s = str(d_int); y, m, d = int(s[:4]), int(s[4:6]), int(s[6:])`, then
format `f"{y:04d}-{m:02d}-{d:02d}"`.  `none` models the `ValueError` that
`int("")` raises when `d_int` has fewer than 7 digits. -/
def dailyRecOfRow (cityName : String) (r : DailyRow) : Option DailyRec := do
  let s := natChars r.dateInt
  let y ← pyIntDigits (s.take 4)
  let m ← pyIntDigits ((s.drop 4).take 2)
  let d ← pyIntDigits (s.drop 6)
  let dStr : String := ⟨padZero 4 (natChars y) ++ '-' :: padZero 2 (natChars m) ++ '-' :: padZero 2 (natChars d)⟩
  pure ⟨cityName, dStr, y, m, d, r.tmean, r.tmin, r.tmax⟩

/-- The `df.sort("date")` step: sort records ascending by date string. -/
def sortByDate (l : List DailyRec) : List DailyRec :=
  l.insertionSort (fun a b => pyStrLe a.date b.date)

/-- `ClimateCache.get_daily_data`: select the city's rows with
`date BETWEEN start AND end`, rebuild the date strings, sort by date.
`none` models an escaped `ValueError` (malformed date argument, or a cached
date integer too short to re-format). -/
def get_daily_data (st : Store) (cityName startDate endDate : String) : Option (List DailyRec) :=
  match lookupCity st cityName with
  | none => some []
  | some c =>
    match dateKey startDate, dateKey endDate with
    | some startInt, some endInt =>
      let rows := st.daily.filter (fun d => d.cityId == c.id && decide (startInt ≤ d.dateInt) && decide (d.dateInt ≤ endInt))
      if rows.isEmpty then some []
      else (rows.mapM (dailyRecOfRow cityName)).map sortByDate
    | _, _ => none

/-- A row of the polars frame handed to `save_daily` (the
`fetch_historical` schema: `date`, `tmean`, `tmin`, `tmax`). -/
structure InRec where
  date : String
  tmean : Option Flt
  tmin : Option Flt
  tmax : Option Flt
deriving DecidableEq

/-- One loop step of `save_daily`'s row preparation: strip dashes from the
date; skip the row when the result is not 8 characters (`some none`);
otherwise parse it (`none` = `int()` raised on a non-digit). -/
def rowFor (cid : Nat) (r : InRec) : Option (Option DailyRow) :=
  let ds := r.date.data.filter (fun c => c != '-')
  if ds.length ≠ 8 then some none
  else (pyIntDigits ds).map (fun d => some ⟨cid, d, r.tmean, r.tmin, r.tmax⟩)

/-- The `rows_to_insert` list built by `save_daily`. -/
def rowsToInsert (cid : Nat) : List InRec → Option (List DailyRow)
  | [] => some []
  | r :: rs => do
    let h ← rowFor cid r
    let t ← rowsToInsert cid rs
    pure (match h with
          | some row => row :: t
          | none => t)

/-- The `(city_id, date)` primary key of a daily row. -/
def dKey (d : DailyRow) : Nat × Nat := (d.cityId, d.dateInt)

/-- One `INSERT ... ON CONFLICT(city_id, date) DO UPDATE` statement: replace
the row with the conflicting key in place, or append a fresh row. -/
def upsertDaily (l : List DailyRow) (row : DailyRow) : List DailyRow :=
  if l.any (fun d => dKey d == dKey row) then
    l.map (fun d => if dKey d == dKey row then row else d)
  else l ++ [row]

/-- `ClimateCache.save_daily`: empty frame → return unchanged; unknown city →
return unchanged; otherwise build `rows_to_insert` (`none` propagates the
`ValueError`, under which the transaction is rolled back and the store is
unchanged) and run the `executemany` upsert. -/
def save_daily (st : Store) (cityName : String) (df : List InRec) : Option Store :=
  if df.isEmpty then some st
  else
    match lookupCity st cityName with
    | none => some st
    | some c =>
      (rowsToInsert c.id df).map (fun rows => { st with daily := rows.foldl upsertDaily st.daily })

/-- Key uniqueness of the `daily_data` table: its `(city_id, date)` primary
key guarantees no two rows share a key. -/
def WFdaily (st : Store) : Prop := (st.daily.map dKey).Nodup

/-- The key sequence of a daily-row list (analysis helper). -/
def dailyKeys (l : List DailyRow) : List (Nat × Nat) := l.map dKey

/-- The first row carrying a key (analysis helper; under `WFdaily` it is the
only one). -/
def getDaily (l : List DailyRow) (k : Nat × Nat) : Option DailyRow :=
  l.find? (fun d => dKey d == k)

/-- The last row of a batch carrying a key — the value last-write-wins
leaves behind (analysis helper). -/
def lastMatch : List DailyRow → (Nat × Nat) → Option DailyRow
  | [], _ => none
  | r :: rs, k =>
    match lastMatch rs k with
    | some x => some x
    | none => if dKey r == k then some r else none

/-! ## Binary frame codec (`ipc_helpers.send_binary_data` and its reader)

`send_binary_data(values, storage)` writes one JSON header line
`(type="binary", length=len(values)*8, storage)` and then
`struct.pack(f"<{len(values)}d", *values)` — the values as consecutive
little-endian 64-bit words.  A value is modelled by its 64-bit pattern, a
`Nat` below `2 ^ 64`; byte streams are `List Nat`. -/

/-- The eight little-endian bytes of a 64-bit word. -/
def leBytes (v : Nat) : List Nat :=
  [v % 256, v / 256 % 256, v / 256 ^ 2 % 256, v / 256 ^ 3 % 256,
   v / 256 ^ 4 % 256, v / 256 ^ 5 % 256, v / 256 ^ 6 % 256, v / 256 ^ 7 % 256]

/-- `struct.pack(f"<{n}d", *values)`: all the values' bytes, in order. -/
def packValues (vs : List Nat) : List Nat := vs.flatMap leBytes

/-- The binary-annotated header record. -/
structure BinHeader where
  length : Nat
  storage : String
deriving DecidableEq

/-- `send_binary_data`: the header (declaring `len(values) * 8` payload
bytes) followed by the packed payload. -/
def send_binary_data (vs : List Nat) (storage : String) : BinHeader × List Nat :=
  (⟨vs.length * 8, storage⟩, packValues vs)

/-- Recombine eight little-endian bytes into a 64-bit word. -/
def wordOfBytes (b0 b1 b2 b3 b4 b5 b6 b7 : Nat) : Nat :=
  b0 + 256 * (b1 + 256 * (b2 + 256 * (b3 + 256 * (b4 + 256 * (b5 + 256 * (b6 + 256 * b7))))))

/-- Split a byte list into 64-bit words (any trailing group of fewer than
eight bytes is dropped). -/
def unpackWords : List Nat → List Nat
  | b0 :: b1 :: b2 :: b3 :: b4 :: b5 :: b6 :: b7 :: rest =>
    wordOfBytes b0 b1 b2 b3 b4 b5 b6 b7 :: unpackWords rest
  | _ => []

/-- Modelled from the spec: the host-side reader of a binary-annotated
message (the host application's source is not part of this repository).
Per §6 of the spec it takes exactly `length` raw bytes following the header
line and interprets them as `length / 8` little-endian IEEE-754 doubles. -/
def readBinaryFrame (header : BinHeader) (stream : List Nat) : List Nat :=
  unpackWords (stream.take header.length)

/-! ## The MSC plugin (`msc-climate-data/main.py`)

`handle_initialize` is a two-step discovery wizard driven by a `while True`
loop over `read_request()`.  The loop is embedded as a recursion over the
list of incoming messages; running off the end of the list models
`read_request()` returning `None` (end of stream or malformed line).
The remote `msc_api` calls are network clients and enter the model as
environment functions returning `Except` (`.error` = the exception the
`except` clauses catch). -/

/-- `msc_api.Station` (the fields of the inventory dataclass). -/
structure Station where
  climate_id : String
  name : String
  province : String
  province_code : String
  first_date : Option String
  last_date : Option String
  latitude : Flt
  longitude : Flt
deriving DecidableEq

/-- `msc_api.DailyObservation`. -/
structure Obs where
  date : String
  mean_temp : Option Flt
  min_temp : Option Flt
  max_temp : Option Flt
deriving DecidableEq

/-- A map coordinate pair (the `location` object of the step-1 form). -/
structure Coords where
  lat : Flt
  lng : Flt
deriving DecidableEq

/-- The payload under a `result` key, with one optional field per key the
handler probes (`res.get("location")`, `res.get("startDate")`,
`res.get("endDate")`, `res["station"]`). -/
structure MscRes where
  location : Option Coords
  startDate : Option String
  endDate : Option String
  station : Option String
deriving DecidableEq

/-- An inbound message as the MSC loop probes it: `"result" in req` and
`"error" in req` become field presence. -/
structure MscReq where
  result : Option MscRes
  error : Option String
deriving DecidableEq

/-- Everything the MSC plugin writes to stdout.  `form1`/`form2` are the two
`send_show_form` calls with their prefill data (the static JSON schema and
ui-schema payloads are elided); `done` is `send_response({"result": ...})`;
`crash` marks an uncaught exception (`res["station"]` on a payload without
the key). -/
inductive MscOut where
  | form1 (loc : Coords) (startDate endDate : String)
  | form2 (stations : List Station) (selected : String)
  | log (level msg : String)
  | err (msg : String)
  | done (msg : String)
  | binary (values : List Flt) (storage : String)
  | crash
deriving DecidableEq

/-- The module-level `PluginState` of the MSC plugin. -/
structure MscState where
  station : Option Station
  startDate : String
  endDate : String
  observations : List Obs
deriving DecidableEq

/-- The discovery-loop locals of `handle_initialize`: `step`, `coords`,
`start_date`, `end_date`, `discovered_stations`. -/
structure MscWf where
  step : Nat
  coords : Coords
  startDate : String
  endDate : String
  discovered : List Station
deriving DecidableEq

/-- Environment of the MSC plugin: the two `msc_api` network clients
(`.error e` = raised exception with text `e`), the float formatters used in
log strings (`f"{x}"` and `f"{x:.2f}"` on the opaque floats), and the
date-arithmetic defaults computed from `datetime.date.today()`. -/
structure MscEnv where
  search : Coords → String → String → Except String (List Station)
  fetchDaily : String → String → String → Except String (List Obs)
  fmtS : Flt → String
  fmt2 : Flt → String
  defaultCoords : Coords
  defStart : String
  defEnd : String

/-- The form the MSC loop shows at the top of an iteration: the step-1 map
form, the step-2 station selector (prefilled with the first discovered
station's id), or nothing for an out-of-range step value. -/
def mscForm (w : MscWf) : List MscOut :=
  if w.step = 1 then [.form1 w.coords w.startDate w.endDate]
  else if w.step = 2 then
    [.form2 w.discovered (match w.discovered with
                          | s :: _ => s.climate_id
                          | [] => "")]
  else []

/-- The log text of the step-1 verification message. -/
def mscVerifyMsg (env : MscEnv) (c : Coords) : String :=
  "Verifying stations near " ++ env.fmtS c.lat ++ ", " ++ env.fmtS c.lng ++ "..."

/-- The error text shown when discovery finds no stations. -/
def mscNoStationsMsg (env : MscEnv) (c : Coords) : String :=
  "No stations found with daily data near " ++ env.fmt2 c.lat ++ ", " ++ env.fmt2 c.lng ++
  " for that period. Please try another location or date range."

/-- The `while True` loop of `handle_initialize`: emit the current step's
form, read one message, dispatch on `result`/`error` key presence.  Returns
the emitted outputs, the final plugin state, and the unread remainder of the
input stream. -/
def mscLoop (env : MscEnv) (st : MscState) (w : MscWf) :
    List MscReq → List MscOut × MscState × List MscReq
  | [] => (mscForm w, st, [])
  | req :: rest =>
    match req.result with
    | some res =>
      if w.step = 1 then
        let c := res.location.getD w.coords
        let sd := res.startDate.getD w.startDate
        let ed := res.endDate.getD w.endDate
        let lv : MscOut := .log "info" (mscVerifyMsg env c)
        match env.search c sd ed with
        | .ok stations =>
          if stations.isEmpty then
            let msg := mscNoStationsMsg env c
            let k := mscLoop env st { w with coords := c, startDate := sd, endDate := ed, discovered := stations } rest
            (mscForm w ++ lv :: .log "warn" msg :: .err msg :: k.1, k.2)
          else
            let k := mscLoop env st { w with step := 2, coords := c, startDate := sd, endDate := ed, discovered := stations } rest
            (mscForm w ++ lv :: k.1, k.2)
        | .error e =>
          let k := mscLoop env st { w with coords := c, startDate := sd, endDate := ed } rest
          (mscForm w ++ lv :: .err ("Discovery search failed: " ++ e) :: k.1, k.2)
      else if w.step = 2 then
        match res.station with
        | none => (mscForm w ++ [.crash], st, rest)
        | some sid =>
          match w.discovered.find? (fun s => s.climate_id == sid) with
          | none =>
            let k := mscLoop env st { w with step := 1 } rest
            (mscForm w ++ .err "Selection lost. Please try again." :: k.1, k.2)
          | some stn =>
            let st1 := { st with station := some stn, startDate := w.startDate, endDate := w.endDate }
            let ls : MscOut := .log "info" ("Selected " ++ stn.name ++ ". Fetching full data set...")
            match env.fetchDaily sid w.startDate w.endDate with
            | .ok obs =>
              let st2 := { st1 with observations := obs }
              if obs.isEmpty then
                let k := mscLoop env st2 { w with step := 1 } rest
                (mscForm w ++ ls :: .err "Station verification failed: no actual observations returned." :: k.1, k.2)
              else
                (mscForm w ++ [ls, .log "info" ("Loaded " ++ toString obs.length ++ " daily observations"), .done "initialized"],
                 st2, rest)
            | .error e =>
              let k := mscLoop env st1 { w with step := 1 } rest
              (mscForm w ++ ls :: .err ("Final data fetch failed: " ++ e) :: k.1, k.2)
      else
        let k := mscLoop env st w rest
        (mscForm w ++ k.1, k.2)
    | none =>
      match req.error with
      | some _ =>
        (mscForm w ++ [.log "info" "Discovery cancelled", .err "cancelled"], st, rest)
      | none =>
        let k := mscLoop env st w rest
        (mscForm w ++ k.1, k.2)

/-- `handle_initialize` of the MSC plugin: start the loop at step 1 with the
Calgary default coordinates and the default date window. -/
def mscInitialize (env : MscEnv) (st : MscState) (inputs : List MscReq) :
    List MscOut × MscState × List MscReq :=
  mscLoop env st ⟨1, env.defaultCoords, env.defStart, env.defEnd, []⟩ inputs

/-- The per-observation series value chosen by `handle_get_series_data`
(`val` stays `None` for an unrecognised series id, so the row is skipped). -/
def obsVal (seriesId : String) (o : Obs) : Option Flt :=
  if seriesId == "mean_temp" then o.mean_temp
  else if seriesId == "min_temp" then o.min_temp
  else if seriesId == "max_temp" then o.max_temp
  else none

/-- The value vector `handle_get_series_data` builds: per observation, parse
the date (`tsOf` models `datetime.strptime(...).timestamp()`, `none` = parse
exception, row skipped by the bare `except`), then append the (timestamp,
value) pair.  The source appends the identical pair whether or not
`preferred_storage` is `"interleaved"` (the `arrays` variant is a TODO). -/
def mscSeriesValues (tsOf : String → Option Flt) (seriesId storage : String) :
    List Obs → List Flt
  | [] => []
  | o :: os =>
    match tsOf o.date with
    | none => mscSeriesValues tsOf seriesId storage os
    | some t =>
      match obsVal seriesId o with
      | none => mscSeriesValues tsOf seriesId storage os
      | some v =>
        if storage == "interleaved" then t :: v :: mscSeriesValues tsOf seriesId storage os
        else t :: v :: mscSeriesValues tsOf seriesId storage os

/-- `handle_get_series_data` of the MSC plugin: with no observations loaded,
a single error response; otherwise a binary frame (always sent with
`storage="interleaved"`). -/
def mscGetSeriesData (tsOf : String → Option Flt) (st : MscState)
    (seriesId storage : String) : List MscOut :=
  if st.observations.isEmpty then [.err "No data available"]
  else [.binary (mscSeriesValues tsOf seriesId storage st.observations) "interleaved"]

/-! ## The open-meteo plugin (`open_meteo_climate_downloader/main.py`)

The plugin keeps a module-level `PluginState`, a `ClimateCache` (the store
modelled above) and a flat-file search history.  The remote clients
(`geocode_city`, `fetch_historical`) and every floating-point operation
enter the model through an environment record.  The `protocol` module the
plugin imports is the SDK twin of `ipc_helpers` (its file is not part of
this repository); its `send_form_update` and `send_response({})` writes are
modelled from the spec as the dedicated output constructors `formUpdate`
and `emptyResp`. -/

/-- A history entry (`history.py` stores dicts with `cities`,
`start_date`, `end_date`). -/
structure Search where
  cities : List String
  start_date : String
  end_date : String
deriving DecidableEq

/-- A map marker produced by `geocode_city_list`. -/
structure Marker where
  lat : Flt
  lng : Flt
  popup : String
deriving DecidableEq

/-- The form payload (prefill data of the configuration form), one optional
field per key the handlers probe. -/
structure FormData where
  search_type : Option String
  cities : Option (List String)
  start_date : Option String
  end_date : Option String
  map_markers : Option (List Marker)
  mode : Option String
deriving DecidableEq

/-- The submitted `result` payload of the configuration form. -/
structure FormRes where
  cities : Option (List String)
  start_date : Option String
  end_date : Option String
  mode : Option String
deriving DecidableEq

/-- An inbound request as the open-meteo plugin probes it
(`req.get("method")`, `"result" in req`, `"error" in req`,
`req.get("data")`, `req.get("series_id")`, `req.get("preferred_storage")`). -/
structure OmReq where
  method : Option String
  result : Option FormRes
  error : Option String
  data : Option FormData
  series_id : Option String
  preferred_storage : Option String
deriving DecidableEq

/-- Everything the open-meteo plugin writes to stdout.  `showForm` carries
the prefill data of `send_show_form` (static schema/ui payloads elided);
`formUpdate`/`emptyResp` are the two `form_change` answers; `done` is
`send_response({"result": ...})`; `crash` marks an uncaught exception. -/
inductive OmOut where
  | showForm (data : FormData)
  | formUpdate (data : FormData)
  | emptyResp
  | log (level msg : String)
  | err (msg : String)
  | done (msg : String)
  | infoResp (name : String) (version : Nat)
  | chartConfig (title : String)
  | seriesConfig (series : List (String × String))
  | binary (values : List Flt) (storage : String)
  | crash
deriving DecidableEq

/-- The module-level `PluginState` of the open-meteo plugin.  `data` is the
`dict[str, pl.DataFrame]` of loaded frames, as an insertion-ordered
association list. -/
structure OmPlugin where
  cities : List String
  startDate : String
  endDate : String
  mode : String
  data : List (String × List DailyRec)
deriving DecidableEq

/-- The whole mutable session: plugin state, cache database, history file. -/
structure OmSess where
  plugin : OmPlugin
  cache : Store
  history : List Search
deriving DecidableEq

/-- Environment of the open-meteo plugin: remote clients (`.error` = raised
exception), the source-lag cutoff and default dates computed from
`datetime.date.today()`, and the floating-point operations
(`datetime.strptime(...).timestamp()`, polars `mean` and
`rolling_mean(10, center=True)`), none of which are shallow-embeddable.
`parseFailMsg` is the text of a `ValueError` raised inside the fetch
`try` block (cache row parsing), which the handler folds into its error
response. -/
structure OmEnv where
  geocode : String → Except String (Option (Flt × Flt))
  fetchHist : Flt → Flt → String → String → Except String (List InRec)
  lagInt : Nat
  defStart : String
  defEnd : String
  tsOf : String → Option Flt
  mean : List Flt → Flt
  rolling : List Flt → List (Option Flt)
  parseFailMsg : String

/-- `geocode_city_list`: strip each name, skip empties, resolve coordinates
from the cache first and the geocoder second (writing a fresh result back
with `save_city`), collect markers and an all-resolved flag.  `none` models
the geocoder raising (no `try` protects this loop). -/
def geocodeCityList (env : OmEnv) (cache : Store) : List String → Option (List Marker × Bool × Store)
  | [] => some ([], true, cache)
  | city0 :: rest =>
    let city := pyStrip city0
    if city == "" then geocodeCityList env cache rest
    else
      match get_city_location cache city with
      | some loc =>
        (geocodeCityList env cache rest).map (fun k => (⟨loc.1, loc.2, city⟩ :: k.1, k.2))
      | none =>
        match env.geocode city with
        | .error _ => none
        | .ok none =>
          (geocodeCityList env cache rest).map (fun k => (k.1, false, k.2.2))
        | .ok (some loc) =>
          (geocodeCityList env (save_city cache city loc.1 loc.2).2 rest).map
            (fun k => (⟨loc.1, loc.2, city⟩ :: k.1, k.2))

/-- The tail of `load_city_data` once coordinates are known: log, call
`fetch_historical` inside `try`, merge non-empty frames into the cache and
re-read them into `state.data`.  A raised exception inside the `try`
(remote failure, or a `ValueError` while parsing rows) is caught and
answered with the `Failed fetching` error. -/
def loadFetch (env : OmEnv) (sess : OmSess) (city sd ed : String) (loc : Flt × Flt) :
    Bool × OmSess × List OmOut :=
  let o2 : OmOut := .log "info" ("Fetching open-meteo for " ++ city ++ "...")
  match env.fetchHist loc.1 loc.2 sd ed with
  | .error e => (false, sess, [o2, .err ("Failed fetching " ++ city ++ ": " ++ e)])
  | .ok df =>
    if df.isEmpty then (true, sess, [o2, .log "warn" ("No data returned for " ++ city)])
    else
      match save_daily sess.cache city df with
      | none => (false, sess, [o2, .err ("Failed fetching " ++ city ++ ": " ++ env.parseFailMsg)])
      | some cache1 =>
        match get_daily_data cache1 city sd ed with
        | none =>
          (false, { sess with cache := cache1 },
           [o2, .err ("Failed fetching " ++ city ++ ": " ++ env.parseFailMsg)])
        | some dfq =>
          (true,
           { sess with
             cache := cache1,
             plugin := { sess.plugin with data := dictSet sess.plugin.data city dfq } },
           [o2])

/-- `load_city_data`: covered range → serve from the cache; otherwise
resolve coordinates (cache, then geocoder — which runs outside any `try`,
so `none` models its exception escaping), then fetch.  Returns the
function's boolean, the mutated session, and the emitted messages. -/
def loadCityData (env : OmEnv) (sess : OmSess) (city sd ed : String) :
    Option (Bool × OmSess × List OmOut) :=
  match has_date_range env.lagInt sess.cache city sd ed with
  | none => none
  | some true =>
    match get_daily_data sess.cache city sd ed with
    | none => none
    | some df =>
      some (true,
            { sess with plugin := { sess.plugin with data := dictSet sess.plugin.data city df } },
            [.log "info" ("Using cached data for " ++ city)])
  | some false =>
    let o1 : OmOut := .log "info" ("Geocoding " ++ city ++ "...")
    match get_city_location sess.cache city with
    | some loc =>
      let k := loadFetch env sess city sd ed loc
      some (k.1, k.2.1, o1 :: k.2.2)
    | none =>
      match env.geocode city with
      | .error _ => none
      | .ok none =>
        some (false, sess, [o1, .err ("Could not calculate coordinates for " ++ city)])
      | .ok (some loc) =>
        let sess1 := { sess with cache := (save_city sess.cache city loc.1 loc.2).2 }
        let k := loadFetch env sess1 city sd ed loc
        some (k.1, k.2.1, o1 :: k.2.2)

/-- The `for city in cities` loop of `process_form_submit`: load each city in
turn, stopping at the first failure. -/
def loadAll (env : OmEnv) (sess : OmSess) (sd ed : String) :
    List String → Option (Bool × OmSess × List OmOut)
  | [] => some (true, sess, [])
  | c :: cs =>
    (loadCityData env sess c sd ed).bind (fun k =>
      if k.1 then
        (loadAll env k.2.1 sd ed cs).map (fun k2 => (k2.1, k2.2.1, k.2.2 ++ k2.2.2))
      else some (false, k.2.1, k.2.2))

/-- `history.log_search`: drop the exact-duplicate entry, insert the new one
at the front, keep the first 15. -/
def logSearch (hist : List Search) (cities : List String) (sd ed : String) : List Search :=
  (⟨cities, sd, ed⟩ ::
    hist.filter (fun h => !(h.cities == cities && h.start_date == sd && h.end_date == ed))).take 15

/-- `process_form_submit`: read the submitted fields (with the defaults the
caller passes), validate the date order (Python's `start_date >= end_date`
string comparison) and the city list, load every city, then record the
search and commit the submitted configuration into the plugin state.
`none` models an exception escaping from `load_city_data`. -/
def processFormSubmit (env : OmEnv) (sess : OmSess) (res : FormRes) (defStart defEnd : String) :
    Option (Bool × OmSess × List OmOut) :=
  let sd := res.start_date.getD defStart
  let ed := res.end_date.getD defEnd
  let mode := res.mode.getD "Daily"
  if pyStrGe sd ed then some (false, sess, [.err "Start date must be before end date."])
  else
    let cities := ((res.cities.getD []).map pyStrip).filter (fun c => !(c == ""))
    if cities.isEmpty then some (false, sess, [.err "At least one valid city is required."])
    else
      let o : OmOut := .log "info" ("Processing: " ++ pyJoin ", " cities)
      (loadAll env sess sd ed cities).map (fun k =>
        if k.1 then
          (true,
           { k.2.1 with
             history := logSearch k.2.1.history cities sd ed,
             plugin := { k.2.1.plugin with cities := cities, startDate := sd, endDate := ed, mode := mode } },
           o :: k.2.2)
        else (false, k.2.1, o :: k.2.2))

/-- The empty prefill dictionary (`req.get("data", {})` default). -/
def emptyFormData : FormData := ⟨none, none, none, none, none, none⟩

/-- `process_form_change`: detect a history-preset change (filling the form
from the stored search) and a city-list change (re-geocoding the markers),
then answer with a form update or an empty acknowledgement.  Returns
`(needs_update, last_cities, last_search)`, the mutated session and the
messages; `none` models the geocoder raising. -/
def processFormChange (env : OmEnv) (sess : OmSess) (req : OmReq)
    (lastCities : List String) (lastSearch : String) (searchMaps : List (String × Search)) :
    Option ((Bool × List String × String) × OmSess × List OmOut) :=
  let nd0 := req.data.getD emptyFormData
  let cc0 := nd0.cities.getD []
  let cs0 := nd0.search_type.getD "New Search"
  let step1 :=
    if cs0 != lastSearch then
      match (if cs0 != "New Search" then dictGet searchMaps cs0 else none) with
      | some s =>
        ({ nd0 with cities := some s.cities, start_date := some s.start_date, end_date := some s.end_date },
         s.cities, cs0, true)
      | none => (nd0, cc0, cs0, false)
    else (nd0, cc0, lastSearch, false)
  match step1 with
  | (nd1, cc1, ls1, nu1) =>
    if cc1 != lastCities then
      match geocodeCityList env sess.cache cc1 with
      | none => none
      | some k =>
        let nd2 := { nd1 with map_markers := some k.1 }
        some ((true, cc1, ls1), { sess with cache := k.2.2 }, [.formUpdate nd2])
    else
      if nu1 then some ((true, lastCities, ls1), sess, [.formUpdate nd1])
      else some ((false, lastCities, ls1), sess, [.emptyResp])

/-- The label `get_history_options` builds for one stored search. -/
def searchLabel (s : Search) : String :=
  pyJoin ", " s.cities ++ " (" ++ s.start_date ++ " to " ++ s.end_date ++ ")"

/-- `get_history_options`: the dropdown options (starting from
`"New Search"`, duplicates dropped) and the label-to-search map. -/
def getHistoryOptions (hist : List Search) : List String × List (String × Search) :=
  hist.foldl
    (fun acc s =>
      let label := searchLabel s
      if acc.1.contains label then acc else (acc.1 ++ [label], acc.2 ++ [(label, s)]))
    (["New Search"], [])

/-- The initial prefill data of the configuration form. -/
def omInitData (env : OmEnv) (markers : List Marker) : FormData :=
  { search_type := some "New Search", cities := some ["Calgary"],
    start_date := some env.defStart, end_date := some env.defEnd,
    map_markers := some markers, mode := some "Daily" }

/-- The `while True` loop of the open-meteo `handle_initialize` (entered
after the form was shown): dispatch `form_change`, then `result`, then
`error`.  Returns the outputs, the final session, and the number of messages
the loop consumed from the stream (the caller resumes after them). -/
def omLoop (env : OmEnv) (sess : OmSess) (searchMaps : List (String × Search))
    (lastCities : List String) (lastSearch : String) :
    List OmReq → List OmOut × OmSess × Nat
  | [] => ([], sess, 0)
  | req :: rest =>
    if req.method == some "form_change" then
      match processFormChange env sess req lastCities lastSearch searchMaps with
      | none => ([.crash], sess, 1)
      | some k =>
        let k2 := omLoop env k.2.1 searchMaps k.1.2.1 k.1.2.2 rest
        (k.2.2 ++ k2.1, k2.2.1, k2.2.2 + 1)
    else
      match req.result with
      | some res =>
        match processFormSubmit env sess res env.defStart env.defEnd with
        | none => ([.crash], sess, 1)
        | some k =>
          if k.1 then
            (k.2.2 ++ [.log "info" ("Loaded data for " ++ toString k.2.1.plugin.data.length ++ " cities."),
                       .done "initialized"],
             k.2.1, 1)
          else
            let k2 := omLoop env k.2.1 searchMaps lastCities lastSearch rest
            (k.2.2 ++ k2.1, k2.2.1, k2.2.2 + 1)
      | none =>
        match req.error with
        | some _ =>
          ([.log "info" "Configuration cancelled", .err "cancelled"], sess, 1)
        | none =>
          let k2 := omLoop env sess searchMaps lastCities lastSearch rest
          (k2.1, k2.2.1, k2.2.2 + 1)

/-- `handle_initialize` of the open-meteo plugin: geocode the default city
list for the initial markers, build the history options, show the form
(with `handle_form_change = true`), then run the loop. -/
def omInitialize (env : OmEnv) (sess : OmSess) (inputs : List OmReq) :
    List OmOut × OmSess × Nat :=
  match geocodeCityList env sess.cache ["Calgary"] with
  | none => ([.crash], sess, 0)
  | some g =>
    let sess1 := { sess with cache := g.2.2 }
    let maps := (getHistoryOptions sess1.history).2
    let k := omLoop env sess1 maps ["Calgary"] "New Search" inputs
    (.showForm (omInitData env g.1) :: k.1, k.2)

/-- The `df[var_name]` column accessor on a daily record. -/
def dailyField (varName : String) (r : DailyRec) : Option Flt :=
  if varName == "tmean" then r.tmean
  else if varName == "tmin" then r.tmin
  else if varName == "tmax" then r.tmax
  else none

/-- `df.select(["date", var_name]).drop_nulls()`: the non-null
(date, value) rows. -/
def selectVar (varName : String) (df : List DailyRec) : List (String × Flt) :=
  df.filterMap (fun r => (dailyField varName r).map (fun v => (r.date, v)))

/-- First-occurrence deduplication of group keys (polars `group_by` yields
each distinct key once; the subsequent `sort` makes the group order
immaterial). -/
def dedupKeys (ks : List String) : List String :=
  ks.foldl (fun acc k => if acc.contains k then acc else acc ++ [k]) []

/-- `group_by(key).agg(col.mean())` over (date, value) rows, keyed through
`keyOf` on the date; `mean` is the environment's float aggregate. -/
def groupAgg (mean : List Flt → Flt) (keyOf : String → String)
    (rows : List (String × Flt)) : List (String × Flt) :=
  (dedupKeys (rows.map (fun r => keyOf r.1))).map
    (fun k => (k, mean ((rows.filter (fun r => keyOf r.1 == k)).map (fun r => r.2))))

/-- `df.sort("date")` on (date, value) rows. -/
def sortPairs (rows : List (String × Flt)) : List (String × Flt) :=
  rows.insertionSort (fun a b => pyStrLe a.1 b.1)

/-- The mode-dependent reshaping of `handle_get_series_data`:
`Daily Means` groups by the month-day slice of the date (re-dated into year
2000), `Daily Means (smoothed)` additionally applies the centered rolling
mean and drops the null ends, `Monthly Means` groups by the month slice,
`Monthly` by the year-month slice; `Daily` (or anything else) passes the
rows through. -/
def omTransform (env : OmEnv) (mode varName : String)
    (rows : List (String × Flt)) : List (String × Flt) :=
  if mode == "Daily Means" || mode == "Daily Means (smoothed)" then
    let g := sortPairs ((groupAgg env.mean (fun d => pySliceFrom d 5) rows).map
      (fun p => ("2000-" ++ p.1, p.2)))
    if mode == "Daily Means (smoothed)" then
      (g.zip (env.rolling (g.map (fun p => p.2)))).filterMap
        (fun q => q.2.map (fun v => (q.1.1, v)))
    else g
  else if mode == "Monthly Means" then
    sortPairs ((groupAgg env.mean (fun d => pySlice d 5 2) rows).map
      (fun p => ("2000-" ++ p.1 ++ "-15", p.2)))
  else if mode == "Monthly" then
    sortPairs ((groupAgg env.mean (fun d => pySlice d 0 7) rows).map
      (fun p => (p.1 ++ "-15", p.2)))
  else rows

/-- The final value vector of the open-meteo `handle_get_series_data`: per
row, parse the date into a timestamp (`none` = `strptime` raised, row
skipped by the bare `except`) and append the (timestamp, value) pair. -/
def omValuesOf (tsOf : String → Option Flt) : List (String × Flt) → List Flt
  | [] => []
  | r :: rs =>
    match tsOf r.1 with
    | none => omValuesOf tsOf rs
    | some t => t :: r.2 :: omValuesOf tsOf rs

/-- `handle_get_series_data` of the open-meteo plugin. -/
def omGetSeriesData (env : OmEnv) (sess : OmSess) (seriesId storage : String) : List OmOut :=
  if sess.plugin.data.isEmpty then [.err "No data available"]
  else
    let parts := pySplitUnderscore seriesId
    if parts.length < 2 then [.err "Invalid series format"]
    else
      let city := pyJoin "_" parts.dropLast
      let varName := parts.getLastD ""
      match dictGet sess.plugin.data city with
      | none => [.err "Series or city not found"]
      | some df =>
        if !(varName == "tmean" || varName == "tmin" || varName == "tmax") then
          [.err "Series or city not found"]
        else
          [.binary (omValuesOf env.tsOf (omTransform env sess.plugin.mode varName (selectVar varName df)))
                   "interleaved"]

/-- The chart title `handle_get_chart_config` builds. -/
def omChartTitle (cities : List String) : String :=
  if cities.length == 1 then cities.headD "" ++ " Temperature History"
  else if cities.length ≤ 3 then pyJoin ", " cities ++ " Temperature History"
  else "Climate Comparison"

/-- `handle_get_chart_config` of the open-meteo plugin. -/
def omGetChartConfig (sess : OmSess) : List OmOut :=
  if sess.plugin.cities.isEmpty then [.err "Not initialized"]
  else [.chartConfig (omChartTitle sess.plugin.cities)]

/-- `handle_get_series_config` of the open-meteo plugin. -/
def omGetSeriesConfig (sess : OmSess) : List OmOut :=
  if sess.plugin.cities.isEmpty then [.err "Not initialized"]
  else
    [.seriesConfig (sess.plugin.cities.flatMap (fun city =>
      let pre := if sess.plugin.cities.length > 1 then city ++ " " else ""
      [(city ++ "_tmean", pre ++ "Mean Temp"),
       (city ++ "_tmin", pre ++ "Min Temp"),
       (city ++ "_tmax", pre ++ "Max Temp")]))]

/-- Does an output mark an uncaught exception? -/
def isCrashOut : OmOut → Bool
  | .crash => true
  | _ => false

/-- Is an output a binary frame (header plus payload)? -/
def isBinaryOut : OmOut → Bool
  | .binary _ _ => true
  | _ => false

/-- Is an output the successful-initialisation response
`send_response({"result": "initialized"})`? -/
def isInitializedOut : OmOut → Bool
  | .done m => m == "initialized"
  | _ => false

/-- The text of an `f"Unknown method: {method}"` response
(`req.get("method")` may be `None`). -/
def methodText : Option String → String
  | some m => m
  | none => "None"

/-- The body of the `main()` request loop of the open-meteo plugin: read a
request, dispatch on its `method`, answer, repeat until the stream ends.
The `initialize` handler consumes further messages from the same stream; a
crash inside it (an uncaught exception) terminates the process.  The `fuel`
argument only bounds the iteration count so that the recursion is
structural; `omMain` below supplies the stream length, which the loop can
never exhaust (every iteration consumes at least one message). -/
def omMainGo (env : OmEnv) : Nat → OmSess → List OmReq → List OmOut × OmSess
  | 0, sess, _ => ([], sess)
  | _, sess, [] => ([], sess)
  | fuel + 1, sess, req :: rest =>
    if req.method == some "info" then
      let k := omMainGo env fuel sess rest
      (.infoResp "Open Meteo Downloader" 1 :: k.1, k.2)
    else if req.method == some "initialize" then
      let h := omInitialize env sess rest
      if h.1.any isCrashOut then (h.1, h.2.1)
      else
        let k := omMainGo env fuel h.2.1 (rest.drop h.2.2)
        (h.1 ++ k.1, k.2)
    else if req.method == some "get_chart_config" then
      let k := omMainGo env fuel sess rest
      (omGetChartConfig sess ++ k.1, k.2)
    else if req.method == some "get_series_config" then
      let k := omMainGo env fuel sess rest
      (omGetSeriesConfig sess ++ k.1, k.2)
    else if req.method == some "get_series_data" then
      let k := omMainGo env fuel sess rest
      (omGetSeriesData env sess (req.series_id.getD "") (req.preferred_storage.getD "interleaved") ++ k.1, k.2)
    else
      let k := omMainGo env fuel sess rest
      (.err ("Unknown method: " ++ methodText req.method) :: k.1, k.2)

/-- The `main()` request loop, started with enough fuel for the whole
stream. -/
def omMain (env : OmEnv) (sess : OmSess) (inputs : List OmReq) : List OmOut × OmSess :=
  omMainGo env inputs.length sess inputs

/-! ## The control-message codec (`ipc_helpers.send_response` / `read_request`)

`send_response` writes `json.dumps(data) + "\n"` and flushes;
`read_request` reads one line, strips it, and runs `json.loads` (returning
`None` at end of stream or on malformed input).  The message universe is
the JSON value type below; numbers are restricted to integers (the
specification's control fields are strings, integers, booleans and nested
containers — `float` literals are outside the shallow embedding).  The
serialiser follows `json.dumps` with its defaults: separators `", "` and
`": "`, and `ensure_ascii=True` escaping (including surrogate pairs).  The
reader follows `json.loads`; objects are built key-by-key into an
insertion-ordered dictionary, a later duplicate key overwriting the
earlier value in place. -/

/-- A JSON value (Python-side: `None`, `bool`, `int`, `str`, `list`, `dict`). -/
inductive PyJson where
  | jnull
  | jbool (b : Bool)
  | jint (i : Int)
  | jstr (s : List Char)
  | jarr (es : List PyJson)
  | jobj (ps : List (List Char × PyJson))

/-- A lowercase hexadecimal digit character, as `"%04x"` formats it. -/
def hexDig (n : Nat) : Char :=
  if n < 10 then Char.ofNat (48 + n) else Char.ofNat (87 + n)

/-- A `\uXXXX` escape for a 16-bit code unit. -/
def uEsc (n : Nat) : List Char :=
  ['\\', 'u', hexDig (n / 4096 % 16), hexDig (n / 256 % 16), hexDig (n / 16 % 16), hexDig (n % 16)]

/-- `json.dumps` escaping of one character under `ensure_ascii=True`: the
two-character escapes for quote, backslash and the named control
characters, printable ASCII verbatim, `\uXXXX` for everything else, with a
surrogate pair for characters beyond the basic multilingual plane. -/
def escChar (c : Char) : List Char :=
  if c == '"' then ['\\', '"']
  else if c == '\\' then ['\\', '\\']
  else if c == '\n' then ['\\', 'n']
  else if c == '\r' then ['\\', 'r']
  else if c == '\t' then ['\\', 't']
  else if c.toNat == 8 then ['\\', 'b']
  else if c.toNat == 12 then ['\\', 'f']
  else if 32 ≤ c.toNat ∧ c.toNat ≤ 126 then [c]
  else if c.toNat < 65536 then uEsc c.toNat
  else uEsc (55296 + (c.toNat - 65536) / 1024) ++ uEsc (56320 + (c.toNat - 65536) % 1024)

/-- A JSON string literal: quote, escaped characters, quote. -/
def strLit (s : List Char) : List Char :=
  '"' :: (s.flatMap escChar ++ ['"'])

/-- `str(i)` for an integer: optional minus sign, then decimal digits. -/
def intChars (i : Int) : List Char :=
  (if i < 0 then ['-'] else []) ++ natChars i.natAbs

mutual
/-- `json.dumps` with its default separators (`", "` between items, `": "`
after a key). -/
def dumps : PyJson → List Char
  | .jnull => ['n', 'u', 'l', 'l']
  | .jbool true => ['t', 'r', 'u', 'e']
  | .jbool false => ['f', 'a', 'l', 's', 'e']
  | .jint i => intChars i
  | .jstr s => strLit s
  | .jarr es => '[' :: (dumpsItems es ++ [']'])
  | .jobj ps => '{' :: (dumpsPairs ps ++ ['}'])
def dumpsItems : List PyJson → List Char
  | [] => []
  | [e] => dumps e
  | e :: es => dumps e ++ ',' :: ' ' :: dumpsItems es
def dumpsPairs : List (List Char × PyJson) → List Char
  | [] => []
  | [p] => strLit p.1 ++ ':' :: ' ' :: dumps p.2
  | p :: ps => strLit p.1 ++ ':' :: ' ' :: dumps p.2 ++ ',' :: ' ' :: dumpsPairs ps
end

/-- `send_response`: the serialised record and its newline terminator. -/
def send_response (j : PyJson) : List Char := dumps j ++ ['\n']

/-- JSON whitespace. -/
def jsWs (c : Char) : Bool := c == ' ' || c == '\t' || c == '\n' || c == '\r'

/-- Skip JSON whitespace. -/
def skipWs (cs : List Char) : List Char := cs.dropWhile jsWs

/-- The value of a hexadecimal digit character (either case). -/
def hexNib (c : Char) : Option Nat :=
  if 48 ≤ c.toNat ∧ c.toNat ≤ 57 then some (c.toNat - 48)
  else if 97 ≤ c.toNat ∧ c.toNat ≤ 102 then some (c.toNat - 87)
  else if 65 ≤ c.toNat ∧ c.toNat ≤ 70 then some (c.toNat - 55)
  else none

/-- Four hexadecimal digits. -/
def hexQuad (a b c d : Char) : Option Nat := do
  let va ← hexNib a
  let vb ← hexNib b
  let vc ← hexNib c
  let vd ← hexNib d
  pure (va * 4096 + vb * 256 + vc * 16 + vd)

/-- The two-character escapes `json.loads` accepts after a backslash. -/
def escTable (e : Char) : Option Char :=
  if e == '"' then some '"'
  else if e == '\\' then some '\\'
  else if e == '/' then some '/'
  else if e == 'b' then some (Char.ofNat 8)
  else if e == 'f' then some (Char.ofNat 12)
  else if e == 'n' then some '\n'
  else if e == 'r' then some '\r'
  else if e == 't' then some '\t'
  else none

/-- After a high surrogate `h`, scan the mandatory low-surrogate escape
`\uXXXX` and recombine the pair into one code point. -/
def escLow (h : Nat) : List Char → Option (Char × List Char)
  | e2 :: e3 :: a2 :: b2 :: c2 :: d2 :: r3 =>
    if e2 == '\\' && e3 == 'u' then
      match hexQuad a2 b2 c2 d2 with
      | none => none
      | some l =>
        if 56320 ≤ l ∧ l ≤ 57343 then
          some (Char.ofNat (65536 + (h - 55296) * 1024 + (l - 56320)), r3)
        else none
    else none
  | _ => none

/-- Scan the four hex digits of a `\uXXXX` escape (the `u` already
consumed): a high surrogate must be followed by a low one, a lone low
surrogate is rejected, anything else is the code point itself. -/
def escU : List Char → Option (Char × List Char)
  | a :: b :: c :: d :: r2 =>
    (match hexQuad a b c d with
     | none => none
     | some h =>
       if 55296 ≤ h ∧ h ≤ 56319 then escLow h r2
       else if 56320 ≤ h ∧ h ≤ 57343 then none
       else some (Char.ofNat h, r2))
  | _ => none

/-- Scan one escape sequence (the backslash already consumed): the decoded
character and the remaining input. -/
def escParse : List Char → Option (Char × List Char)
  | [] => none
  | e :: r1 =>
    if e == 'u' then escU r1
    else
      match escTable e with
      | some c2 => some (c2, r1)
      | none => none

/-- The body of a JSON string after the opening quote, as `json.loads` scans
it: literal characters (control characters are rejected, as in strict
mode), the named escapes, and `\uXXXX` with surrogate-pair recombination
(a lone surrogate, which CPython would keep, has no `Char` and is
rejected).  The fuel bounds the number of decoded characters; each one
consumes at least one input character, so any fuel above the input length
is enough. -/
def strBody : Nat → List Char → Option (List Char × List Char)
  | 0, _ => none
  | _ + 1, [] => none
  | fuel + 1, ch :: r =>
    if ch == '"' then some ([], r)
    else if ch == '\\' then
      match escParse r with
      | some (c2, r1) => (strBody fuel r1).map (fun k => (c2 :: k.1, k.2))
      | none => none
    else if ch.toNat < 32 then none
    else (strBody fuel r).map (fun k => (ch :: k.1, k.2))


/-- Split a leading digit run from the input. -/
def digitSpan : List Char → List Char × List Char
  | [] => ([], [])
  | c :: r =>
    if isDig c then
      let k := digitSpan r
      (c :: k.1, k.2)
    else ([], c :: r)

/-- Read a decimal natural number (one or more digits). -/
def readNat (cs : List Char) : Option (Nat × List Char) :=
  match digitSpan cs with
  | ([], _) => none
  | (ds, r) => some (ds.foldl (fun a c => a * 10 + (c.toNat - 48)) 0, r)

/-- Python-dict construction of one parsed object member: a repeated key
overwrites the stored value in place, a fresh key is appended. -/
def pyDictUpd (m : List (List Char × PyJson)) (k : List Char) (v : PyJson) :
    List (List Char × PyJson) :=
  if m.any (fun p => p.1 == k) then m.map (fun p => if p.1 == k then (k, v) else p)
  else m ++ [(k, v)]

/-- Fold a parsed member list into a Python dict. -/
def pyDictOf (ps : List (List Char × PyJson)) : List (List Char × PyJson) :=
  ps.foldl (fun m p => pyDictUpd m p.1 p.2) []

/-- The tail of the keyword `null` (its head already consumed). -/
def kwNull : List Char → Option (PyJson × List Char)
  | k1 :: k2 :: k3 :: r1 =>
    if k1 == 'u' && k2 == 'l' && k3 == 'l' then some (.jnull, r1) else none
  | _ => none

/-- The tail of the keyword `true` (its head already consumed). -/
def kwTrue : List Char → Option (PyJson × List Char)
  | k1 :: k2 :: k3 :: r1 =>
    if k1 == 'r' && k2 == 'u' && k3 == 'e' then some (.jbool true, r1) else none
  | _ => none

/-- The tail of the keyword `false` (its head already consumed). -/
def kwFalse : List Char → Option (PyJson × List Char)
  | k1 :: k2 :: k3 :: k4 :: r1 =>
    if k1 == 'a' && k2 == 'l' && k3 == 's' && k4 == 'e' then some (.jbool false, r1) else none
  | _ => none

mutual
/-- The recursive JSON reader (`json.loads` without float support: a numeric
token is a digit run with an optional minus sign).  `fuel` bounds the
recursion depth and is supplied from the input length by `loads`. -/
def readVal : Nat → List Char → Option (PyJson × List Char)
  | 0, _ => none
  | _ + 1, [] => none
  | fuel + 1, ch :: r =>
    if ch == 'n' then kwNull r
    else if ch == 't' then kwTrue r
    else if ch == 'f' then kwFalse r
    else if ch == '"' then (strBody (r.length + 1) r).map (fun k => (.jstr k.1, k.2))
    else if ch == '[' then
      match skipWs r with
      | [] => none
      | c :: r2 =>
        if c == ']' then some (.jarr [], r2)
        else (readItems fuel (c :: r2)).map (fun k => (.jarr k.1, k.2))
    else if ch == '{' then
      match skipWs r with
      | [] => none
      | c :: r2 =>
        if c == '}' then some (.jobj [], r2)
        else (readPairs fuel (c :: r2)).map (fun k => (.jobj (pyDictOf k.1), k.2))
    else if ch == '-' then (readNat r).map (fun k => (.jint (-(k.1 : Int)), k.2))
    else if isDig ch then (readNat (ch :: r)).map (fun k => (.jint (k.1 : Int), k.2))
    else none
def readItems : Nat → List Char → Option (List PyJson × List Char)
  | 0, _ => none
  | fuel + 1, cs => do
    let (v, r) ← readVal fuel (skipWs cs)
    match skipWs r with
    | ',' :: r2 => (readItems fuel r2).map (fun k => (v :: k.1, k.2))
    | ']' :: r2 => some ([v], r2)
    | _ => none
def readPairs : Nat → List Char → Option (List (List Char × PyJson) × List Char)
  | 0, _ => none
  | fuel + 1, cs =>
    match skipWs cs with
    | '"' :: r => do
      let (key, r1) ← strBody (r.length + 1) r
      match skipWs r1 with
      | ':' :: r2 => do
        let (v, r3) ← readVal fuel (skipWs r2)
        match skipWs r3 with
        | ',' :: r4 => (readPairs fuel r4).map (fun k => ((key, v) :: k.1, k.2))
        | '}' :: r4 => some ([(key, v)], r4)
        | _ => none
      | _ => none
    | _ => none
end

/-- `json.loads`: read one value, allowing surrounding whitespace and
rejecting trailing data; `none` is the `JSONDecodeError` case. -/
def loads (cs : List Char) : Option PyJson :=
  match readVal (cs.length + 1) (skipWs cs) with
  | some (j, r) => if (skipWs r).isEmpty then some j else none
  | none => none

/-- `read_request`: an empty stream is end-of-file (`None`); otherwise
consume one line (`sys.stdin.readline()`), strip it, and parse it, a
failed parse also yielding `None`.  Returns the parse result and the
stream position after the line. -/
def read_request (stream : List Char) : Option PyJson × List Char :=
  match stream with
  | [] => (none, [])
  | _ =>
    let line := stream.takeWhile (fun c => c != '\n')
    let rest :=
      match stream.drop line.length with
      | '\n' :: r => r
      | r => r
    (loads (stripChars line), rest)

mutual
/-- Well-formedness of a message: object keys are distinct at every level
(Python dicts cannot carry duplicate keys, so every message a plugin or
host actually builds satisfies this). -/
def wfVal : PyJson → Bool
  | .jnull => true
  | .jbool _ => true
  | .jint _ => true
  | .jstr _ => true
  | .jarr es => wfItems es
  | .jobj ps => noDupKeys (ps.map (fun p => p.1)) && wfMembers ps
def wfItems : List PyJson → Bool
  | [] => true
  | e :: es => wfVal e && wfItems es
def wfMembers : List (List Char × PyJson) → Bool
  | [] => true
  | p :: ps => wfVal p.2 && wfMembers ps
def noDupKeys : List (List Char) → Bool
  | [] => true
  | k :: ks => !ks.contains k && noDupKeys ks
end

/-- Holds of an empty list and of a list whose head is no decimal digit: the
inputs that cannot extend a numeric token. -/
def noDigitHead : List Char → Bool
  | [] => true
  | c :: _ => !isDig c

/-! ## Output classifiers and probe inputs for the theorems below -/

/-- Is an MSC output an error response? -/
def isMscErrOut : MscOut → Bool
  | .err _ => true
  | _ => false

/-- Is an MSC output one of the two `show_form` writes? -/
def isMscFormOut : MscOut → Bool
  | .form1 _ _ _ => true
  | .form2 _ _ => true
  | _ => false

/-- Is an MSC output a binary frame? -/
def isMscBinaryOut : MscOut → Bool
  | .binary _ _ => true
  | _ => false

/-- Is an open-meteo output an error response? -/
def isOmErrOut : OmOut → Bool
  | .err _ => true
  | _ => false

/-- Is an open-meteo output a `show_form` write? -/
def isOmFormOut : OmOut → Bool
  | .showForm _ => true
  | _ => false

/-- A concrete MSC environment used to instantiate universally quantified
theorems on closed inputs. -/
def probeMscEnv : MscEnv :=
  ⟨fun _ _ _ => .ok [], fun _ _ _ => .ok [], fun _ => "f", fun _ => "f2",
   ⟨51, -114⟩, "2024-01-01", "2024-12-01"⟩

/-- A concrete open-meteo environment for the same purpose. -/
def probeOmEnv : OmEnv :=
  ⟨fun _ => .ok none, fun _ _ _ _ => .ok [], 0, "1994-01-01", "2024-01-01",
   fun _ => some 7, fun _ => 0, fun l => l.map some, "invalid literal"⟩

/-- A fresh open-meteo session (empty plugin state, empty cache, empty
history), as at process start. -/
def freshOmSess : OmSess := ⟨⟨[], "", "", "Daily", []⟩, ⟨[], 1, []⟩, []⟩

/-- A concrete MSC plugin state with no observations loaded. -/
def freshMscState : MscState := ⟨none, "", "", []⟩

/-- A concrete witness store: one city (Calgary, id 1) with one cached daily
row for 2020-01-01. -/
def calgaryStore : Store :=
  ⟨[⟨1, "Calgary", 51, -114⟩], 2, [⟨1, 20200101, some 1, some (-2), some 4⟩]⟩

/-- Environment for the concrete open-meteo trace below: the geocoder
resolves city `"A"` (and nothing else), the archive client returns one
daily row, and the float operations are inert stand-ins. -/
def cexEnv : OmEnv :=
  ⟨fun c => if c == "A" then .ok (some (1, 2)) else .ok none,
   fun _ _ _ _ => .ok [⟨"2000-01-15", some 10, some 5, some 15⟩],
   0, "1970-01-01", "2024-01-01", fun _ => some 7, fun _ => 0, fun l => l.map some,
   "invalid literal"⟩

/-- The concrete request trace: an `initialize` whose form submission names
cities `A` (loads successfully) and `B` (fails to geocode, so the
submission is rejected and the workflow re-prompts), a cancellation, and
then a `get_series_data` request for the already-loaded series of `A`. -/
def cexReqs : List OmReq :=
  [⟨some "initialize", none, none, none, none, none⟩,
   ⟨none, some ⟨some ["A", "B"], some "2000-01-01", some "2000-02-01", none⟩, none, none, none, none⟩,
   ⟨none, none, some "user cancelled", none, none, none⟩,
   ⟨some "get_series_data", none, none, none, some "A_tmean", some "interleaved"⟩]

/-! ## Theorems

First a few helper lemmas about list searching and updating, then one
theorem (plus witness) per claim. -/

/-- Searching by name commutes with a name-preserving row transformation. -/
theorem find?_name_map {f : CityRow → CityRow} (hf : ∀ r, (f r).name = r.name) :
    ∀ (l : List CityRow) (p : String) (c : CityRow),
      l.find? (fun r => r.name == p) = some c →
      (l.map f).find? (fun r => r.name == p) = some (f c)
  | [], _, _, h => by simp at h
  | r :: l, p, c, h => by
    cases hr : (r.name == p) with
    | true =>
      have hfr : ((f r).name == p) = true := by rw [hf]; exact hr
      simp only [List.find?_cons, hr] at h
      cases h
      simp only [List.map_cons, List.find?_cons, hfr]
    | false =>
      have hfr : ((f r).name == p) = false := by rw [hf]; exact hr
      simp only [List.find?_cons, hr] at h
      simp only [List.map_cons, List.find?_cons, hfr]
      exact find?_name_map hf l p c h

/-- Claim C9: calling `save_daily` (merge) with a record batch for an entity
name that was never upserted is a silent no-op: it returns without raising
and the store — in particular the daily-data table — is left completely
unchanged. -/
theorem merge_unknown_city_noop (st : Store) (name : String) (df : List InRec)
    (h : lookupCity st name = none) : save_daily st name df = some st := by
  simp only [save_daily, h]
  split <;> rfl

/-- Witness for C9 at a concrete input: a non-empty batch for the unknown
name `"X"` over a store that has a different city cached. -/
theorem merge_unknown_city_noop_witness :
    lookupCity calgaryStore "X" = none ∧
    save_daily calgaryStore "X" [⟨"2020-01-01", some 1, none, none⟩] = some calgaryStore :=
  ⟨by decide, merge_unknown_city_noop calgaryStore "X" [⟨"2020-01-01", some 1, none, none⟩] (by decide)⟩

/-- Claim C7: `save_city` (upsert_entity) resolves-or-creates by the natural
key `name`: on an existing name it returns the identifier previously
assigned to that name, overwrites that entity's coordinates in place
(last-write-wins), and preserves the identifier of every existing entity —
identifiers never change for the lifetime of the store. -/
theorem upsert_city_stable (st : Store) (name : String) (lat lng : Flt) (c : CityRow)
    (h : lookupCity st name = some c) :
    (save_city st name lat lng).1 = c.id ∧
    lookupCity (save_city st name lat lng).2 name = some { c with lat := lat, lng := lng } ∧
    (∀ n2 c2, lookupCity st n2 = some c2 →
      (lookupCity (save_city st name lat lng).2 n2).map (fun r => r.id) = some c2.id) := by
  have hfn : ∀ r : CityRow,
      ((if r.name == name then { r with lat := lat, lng := lng } else r) : CityRow).name = r.name := by
    intro r; split <;> rfl
  have h0 : st.cities.find? (fun r => r.name == name) = some c := h
  have hcname : (c.name == name) = true := by
    have hq := List.find?_some h0
    simpa using hq
  refine ⟨by simp [save_city, h], ?_, ?_⟩
  · have hm := find?_name_map hfn st.cities name c h0
    simp only [save_city, lookupCity, h0]
    rw [hm]
    simp [hcname]
  · intro n2 c2 h2
    have h2' : st.cities.find? (fun r => r.name == n2) = some c2 := h2
    have hm := find?_name_map hfn st.cities n2 c2 h2'
    simp only [save_city, lookupCity, h0]
    rw [hm]
    split <;> rfl

/-- Witness for C7 at a concrete input: re-upserting `"Calgary"` with new
coordinates returns the stored id 1, overwrites the coordinates, and keeps
every existing name-to-id mapping. -/
theorem upsert_city_stable_witness :
    lookupCity calgaryStore "Calgary" = some ⟨1, "Calgary", 51, -114⟩ ∧
    (save_city calgaryStore "Calgary" 40 (-100)).1 = 1 ∧
    lookupCity (save_city calgaryStore "Calgary" 40 (-100)).2 "Calgary" =
      some ⟨1, "Calgary", 40, -100⟩ := by
  have h := upsert_city_stable calgaryStore "Calgary" 40 (-100) ⟨1, "Calgary", 51, -114⟩ (by decide)
  exact ⟨by decide, h.1, h.2.1⟩

/-- Claim C10: form-submit validation accepts a date range only when the
start date is strictly below the end date in Python's string order; when it
is not (in particular when the two are equal), `process_form_submit`
answers with the single error `Start date must be before end date.`,
returns `False`, and leaves the whole session — plugin state, cache and
history — unchanged. -/
theorem submit_rejects_bad_dates (env : OmEnv) (sess : OmSess) (res : FormRes)
    (defStart defEnd : String)
    (h : pyStrGe (res.start_date.getD defStart) (res.end_date.getD defEnd) = true) :
    processFormSubmit env sess res defStart defEnd =
      some (false, sess, [.err "Start date must be before end date."]) := by
  simp [processFormSubmit, h]

/-- Witness for C10 at a concrete input: a submission whose start date
equals its end date is rejected and the fresh session is returned
untouched. -/
theorem submit_rejects_bad_dates_witness :
    pyStrGe "2024-05-05" "2024-05-05" = true ∧
    processFormSubmit probeOmEnv freshOmSess
      ⟨some ["Calgary"], some "2024-05-05", some "2024-05-05", none⟩ "1994-01-01" "2024-01-01" =
      some (false, freshOmSess, [.err "Start date must be before end date."]) :=
  ⟨by decide,
   submit_rejects_bad_dates probeOmEnv freshOmSess
     ⟨some ["Calgary"], some "2024-05-05", some "2024-05-05", none⟩ "1994-01-01" "2024-01-01"
     (by decide)⟩

/-- Claim C1: `has_date_range` (is_covered) returns `false` for an entity
that was never upserted — and likewise when the entity has no cached rows at
all — and otherwise returns `true` exactly when the cached minimum date is
at most `start` and the cached maximum date is at least
`min(end, today − source_lag)`, the lag cutoff `lagInt` being the `YYYYMMDD`
value of today minus the fixed 7-day source lag.  (The positivity
hypotheses on the cached extremes discharge Python's truthiness test; every
real `YYYYMMDD` date is positive.) -/
theorem coverage_rule (lagInt : Nat) (st : Store) (name sdate edate : String) (si ei : Nat)
    (hs : dateKey sdate = some si) (he : dateKey edate = some ei) :
    (lookupCity st name = none → has_date_range lagInt st name sdate edate = some false) ∧
    (∀ c, lookupCity st name = some c →
      ((cityDates st c.id).min? = none →
        has_date_range lagInt st name sdate edate = some false) ∧
      (∀ mn mx, (cityDates st c.id).min? = some mn → (cityDates st c.id).max? = some mx →
        0 < mn → 0 < mx →
        (has_date_range lagInt st name sdate edate = some true ↔
          (mn ≤ si ∧ min ei lagInt ≤ mx)))) := by
  constructor
  · intro hn
    simp [has_date_range, hn]
  · intro c hc
    constructor
    · intro hmin
      simp [has_date_range, hc, hs, he, hmin]
    · intro mn mx hmn hmx hmn0 hmx0
      simp only [has_date_range, hc, hs, he, hmn, hmx]
      rw [if_neg (by omega)]
      simp

/-- Witness for C1 at the spec's own scenario: Calgary with one cached row
for 2020-01-01 and a lag cutoff far in the future; the range
`[2020-01-01, 2020-01-01]` is covered. -/
theorem coverage_rule_witness :
    has_date_range 99990101 calgaryStore "Calgary" "2020-01-01" "2020-01-01" = some true := by
  have h := (coverage_rule 99990101 calgaryStore "Calgary" "2020-01-01" "2020-01-01"
    20200101 20200101 (by decide) (by decide)).2 ⟨1, "Calgary", 51, -114⟩ (by decide)
  exact (h.2 20200101 20200101 (by decide) (by decide) (by decide) (by decide)).mpr
    ⟨by decide, by decide⟩

/-- Claim C8 (amended): whenever the plugin state holds no loaded series
data — which is the situation at session start, and in the MSC plugin in
every session without a completed initialize — a `get_series_data` request
is answered with the single error response `No data available` and no
binary header or payload is written.  (As stated the claim fails for the
open-meteo plugin: an uncompleted initialize can already have loaded data;
see the counterexample.) -/
theorem series_data_empty_state_error (env : OmEnv) (sess : OmSess) (sid stor : String)
    (tsOf : String → Option Flt) (mst : MscState) (sid2 stor2 : String)
    (h1 : sess.plugin.data = []) (h2 : mst.observations = []) :
    omGetSeriesData env sess sid stor = [.err "No data available"] ∧
    (omGetSeriesData env sess sid stor).filter isBinaryOut = [] ∧
    mscGetSeriesData tsOf mst sid2 stor2 = [.err "No data available"] ∧
    (mscGetSeriesData tsOf mst sid2 stor2).filter isMscBinaryOut = [] := by
  refine ⟨?_, ?_, ?_, ?_⟩ <;>
    simp [omGetSeriesData, mscGetSeriesData, h1, h2, isBinaryOut, isMscBinaryOut]

/-- Witness for the amended C8 at concrete inputs: both fresh plugin states
answer a `get_series_data` request with the single error and no binary
frame. -/
theorem series_data_empty_state_error_witness :
    freshOmSess.plugin.data = [] ∧ freshMscState.observations = [] ∧
    omGetSeriesData probeOmEnv freshOmSess "A_tmean" "interleaved" = [.err "No data available"] ∧
    mscGetSeriesData (fun _ => some 7) freshMscState "mean_temp" "interleaved" =
      [.err "No data available"] := by
  have h := series_data_empty_state_error probeOmEnv freshOmSess "A_tmean" "interleaved"
    (fun _ => some 7) freshMscState "mean_temp" "interleaved" rfl rfl
  exact ⟨rfl, rfl, h.1, h.2.2.1⟩


/-- Whatever the input stream holds, an iteration of the MSC discovery loop
begins by emitting the current step's form. -/
theorem mscLoop_head_form (env : MscEnv) (st : MscState) (w : MscWf) (inputs : List MscReq) :
    ∃ tl, (mscLoop env st w inputs).1 = mscForm w ++ tl := by
  cases inputs with
  | nil => exact ⟨[], by simp [mscLoop]⟩
  | cons req rest =>
    unfold mscLoop
    dsimp only
    repeat' split
    all_goals exact ⟨_, rfl⟩

/-- Claim C5: in either plugin's initialize workflow, at any step and in any
state, receiving an `error` message while awaiting form input yields exactly
one terminal error response, emits no further form, and reads nothing
further: the MSC loop answers with the cancellation log plus the single
`cancelled` error and hands back the rest of the stream untouched, and the
open-meteo loop does the same consuming exactly the one message. -/
theorem workflow_cancel (env : MscEnv) (st : MscState) (w : MscWf) (req : MscReq)
    (rest : List MscReq) (oenv : OmEnv) (sess : OmSess) (maps : List (String × Search))
    (lc : List String) (ls : String) (oreq : OmReq) (orest : List OmReq)
    (h1 : req.result = none) (h2 : req.error.isSome = true)
    (h3 : (oreq.method == some "form_change") = false)
    (h4 : oreq.result = none) (h5 : oreq.error.isSome = true) :
    mscLoop env st w (req :: rest) =
      (mscForm w ++ [.log "info" "Discovery cancelled", .err "cancelled"], st, rest) ∧
    (((mscLoop env st w (req :: rest)).1.drop (mscForm w).length).filter isMscErrOut).length = 1 ∧
    ((mscLoop env st w (req :: rest)).1.drop (mscForm w).length).filter isMscFormOut = [] ∧
    (mscLoop env st w (req :: rest)).2.2 = rest ∧
    omLoop oenv sess maps lc ls (oreq :: orest) =
      ([.log "info" "Configuration cancelled", .err "cancelled"], sess, 1) ∧
    ((omLoop oenv sess maps lc ls (oreq :: orest)).1.filter isOmErrOut).length = 1 ∧
    (omLoop oenv sess maps lc ls (oreq :: orest)).1.filter isOmFormOut = [] ∧
    (omLoop oenv sess maps lc ls (oreq :: orest)).2.2 = 1 := by
  obtain ⟨e, he⟩ := Option.isSome_iff_exists.mp h2
  obtain ⟨e2, he2⟩ := Option.isSome_iff_exists.mp h5
  have hm : mscLoop env st w (req :: rest) =
      (mscForm w ++ [.log "info" "Discovery cancelled", .err "cancelled"], st, rest) := by
    simp [mscLoop, h1, he]
  have ho : omLoop oenv sess maps lc ls (oreq :: orest) =
      ([.log "info" "Configuration cancelled", .err "cancelled"], sess, 1) := by
    simp [omLoop, h3, h4, he2]
  refine ⟨hm, ?_, ?_, ?_, ho, ?_, ?_, ?_⟩
  · rw [hm]; rw [List.drop_left]; rfl
  · rw [hm]; rw [List.drop_left]; rfl
  · rw [hm]
  · rw [ho]; rfl
  · rw [ho]; rfl
  · rw [ho]

/-- Witness for C5 at concrete inputs: a cancellation message arriving at
step 1 of the MSC wizard and inside the open-meteo configuration loop. -/
theorem workflow_cancel_witness :
    mscLoop probeMscEnv freshMscState ⟨1, ⟨51, -114⟩, "2024-01-01", "2024-06-01", []⟩
      [⟨none, some "user cancelled"⟩] =
      ([.form1 ⟨51, -114⟩ "2024-01-01" "2024-06-01",
        .log "info" "Discovery cancelled", .err "cancelled"], freshMscState, []) ∧
    omLoop probeOmEnv freshOmSess [] ["Calgary"] "New Search"
      [⟨none, none, some "user cancelled", none, none, none⟩] =
      ([.log "info" "Configuration cancelled", .err "cancelled"], freshOmSess, 1) := by
  have h := workflow_cancel probeMscEnv freshMscState ⟨1, ⟨51, -114⟩, "2024-01-01", "2024-06-01", []⟩
    ⟨none, some "user cancelled"⟩ [] probeOmEnv freshOmSess [] ["Calgary"] "New Search"
    ⟨none, none, some "user cancelled", none, none, none⟩ [] rfl rfl rfl rfl rfl
  exact ⟨h.1, h.2.2.2.2.1⟩

/-- Claim C6: in the MSC two-step discovery wizard, a step-1 `result`
submission whose station search returns zero candidates makes the workflow
log a warning, answer with an error, and re-enter step 1 with the submitted
values — the step stays 1, the next emitted form is again step 1's, and no
step-2 form is emitted for that submission. -/
theorem discovery_empty_reenters_step1 (env : MscEnv) (st : MscState) (w : MscWf)
    (req : MscReq) (rest : List MscReq) (res : MscRes)
    (hw : w.step = 1) (hres : req.result = some res)
    (hsearch : env.search (res.location.getD w.coords) (res.startDate.getD w.startDate)
      (res.endDate.getD w.endDate) = .ok []) :
    mscLoop env st w (req :: rest) =
      (mscForm w ++
        .log "info" (mscVerifyMsg env (res.location.getD w.coords)) ::
        .log "warn" (mscNoStationsMsg env (res.location.getD w.coords)) ::
        .err (mscNoStationsMsg env (res.location.getD w.coords)) ::
        (mscLoop env st ⟨1, res.location.getD w.coords, res.startDate.getD w.startDate,
          res.endDate.getD w.endDate, []⟩ rest).1,
       (mscLoop env st ⟨1, res.location.getD w.coords, res.startDate.getD w.startDate,
          res.endDate.getD w.endDate, []⟩ rest).2) ∧
    (mscLoop env st ⟨1, res.location.getD w.coords, res.startDate.getD w.startDate,
        res.endDate.getD w.endDate, []⟩ rest).1.take 1 =
      [.form1 (res.location.getD w.coords) (res.startDate.getD w.startDate)
        (res.endDate.getD w.endDate)] := by
  obtain ⟨step, c0, s0, e0, d0⟩ := w
  simp only at hw
  subst hw
  constructor
  · simp only [mscLoop, hres] at hsearch ⊢
    simp only [hsearch]
    simp
  · obtain ⟨tl, htl⟩ := mscLoop_head_form env st
      ⟨1, res.location.getD c0, res.startDate.getD s0, res.endDate.getD e0, []⟩ rest
    rw [htl]
    simp [mscForm]

/-- Witness for C6 at concrete inputs: an empty submission (falling back to
the current coordinates and dates) against a search that finds nothing. -/
theorem discovery_empty_reenters_step1_witness :
    mscLoop probeMscEnv freshMscState ⟨1, ⟨51, -114⟩, "2024-01-01", "2024-06-01", []⟩
      [⟨some ⟨none, none, none, none⟩, none⟩] =
      ([.form1 ⟨51, -114⟩ "2024-01-01" "2024-06-01",
        .log "info" (mscVerifyMsg probeMscEnv ⟨51, -114⟩),
        .log "warn" (mscNoStationsMsg probeMscEnv ⟨51, -114⟩),
        .err (mscNoStationsMsg probeMscEnv ⟨51, -114⟩),
        .form1 ⟨51, -114⟩ "2024-01-01" "2024-06-01"], freshMscState, []) := by
  have h := discovery_empty_reenters_step1 probeMscEnv freshMscState
    ⟨1, ⟨51, -114⟩, "2024-01-01", "2024-06-01", []⟩ ⟨some ⟨none, none, none, none⟩, none⟩ []
    ⟨none, none, none, none⟩ rfl rfl rfl
  rw [h.1]
  rfl

/-- Counterexample to claim C8 as stated: in the concrete open-meteo session
`cexReqs`, no initialize call ever completes (no `initialized` result is
emitted — the form submission fails on its second city and the user then
cancels), yet the first city's data was already loaded, so the subsequent
`get_series_data` request is answered with a binary frame, not an error. -/
theorem series_data_claim_counterexample :
    (omMain cexEnv freshOmSess cexReqs).1.any isInitializedOut = false ∧
    (omMain cexEnv freshOmSess cexReqs).1.any isBinaryOut = true ∧
    (omMain cexEnv freshOmSess cexReqs).1.any (fun o => o == OmOut.err "cancelled") = true := by
  exact ⟨rfl, rfl, rfl⟩

/-- One upsert either keeps the key sequence (conflict) or appends the new
key. -/
theorem dailyKeys_upsert (l : List DailyRow) (r : DailyRow) :
    dailyKeys (upsertDaily l r) =
      if l.any (fun d => dKey d == dKey r) then dailyKeys l else dailyKeys l ++ [dKey r] := by
  unfold upsertDaily dailyKeys
  split
  · rw [List.map_map]
    apply List.map_congr_left
    intro d _
    simp only [Function.comp]
    split
    · rename_i hd
      rw [show dKey r = dKey d from (beq_iff_eq.mp hd).symm]
    · rfl
  · simp

/-- Key membership matches the Boolean conflict test of `upsertDaily`. -/
theorem mem_dailyKeys_iff (l : List DailyRow) (k : Nat × Nat) :
    k ∈ dailyKeys l ↔ l.any (fun d => dKey d == k) = true := by
  unfold dailyKeys
  rw [List.any_eq_true]
  constructor
  · intro hk
    obtain ⟨d, hd, hdk⟩ := List.mem_map.mp hk
    exact ⟨d, hd, beq_iff_eq.mpr hdk⟩
  · intro hk
    obtain ⟨d, hd, hdk⟩ := hk
    exact List.mem_map.mpr ⟨d, hd, beq_iff_eq.mp hdk⟩

/-- Find after the in-place replacement branch of an upsert. -/
theorem find?_replace (r : DailyRow) (k : Nat × Nat) :
    ∀ l : List DailyRow,
      (l.map (fun d => if dKey d == dKey r then r else d)).find? (fun d => dKey d == k) =
        if k = dKey r then (if l.any (fun d => dKey d == dKey r) then some r else none)
        else l.find? (fun d => dKey d == k)
  | [] => by
    by_cases hk : k = dKey r <;> simp [hk]
  | d :: l => by
    rw [List.map_cons]
    by_cases hd : (dKey d == dKey r) = true
    · rw [if_pos hd]
      by_cases hk : k = dKey r
      · subst hk
        simp only [List.find?_cons, beq_self_eq_true, if_pos rfl, List.any_cons, hd,
          Bool.true_or, if_pos trivial]
      · have h1 : (dKey r == k) = false := beq_eq_false_iff_ne.mpr (fun h => hk h.symm)
        have h2 : (dKey d == k) = false := by rw [beq_iff_eq.mp hd]; exact h1
        simp only [List.find?_cons, h1, h2, if_neg hk]
        rw [find?_replace r k l]
        rw [if_neg hk]
    · have hd' : ¬(dKey d == dKey r) = true := hd
      rw [if_neg hd']
      by_cases hk : k = dKey r
      · subst hk
        have h2 : (dKey d == dKey r) = false := by simpa using hd
        simp only [List.find?_cons, h2]
        rw [find?_replace r (dKey r) l]
        simp only [if_pos rfl, List.any_cons, h2, Bool.false_or]
      · by_cases h3 : (dKey d == k) = true
        · simp only [List.find?_cons, h3, if_neg hk]
        · have h3' : (dKey d == k) = false := by simpa using h3
          simp only [List.find?_cons, h3']
          rw [find?_replace r k l]
          rw [if_neg hk]
          rw [if_neg hk]

/-- Looking a key up after one upsert: the upserted key now maps to the new
row, every other key is untouched. -/
theorem getDaily_upsert (l : List DailyRow) (r : DailyRow) (k : Nat × Nat) :
    getDaily (upsertDaily l r) k = if k = dKey r then some r else getDaily l k := by
  unfold upsertDaily getDaily
  split
  · rename_i hany
    rw [find?_replace]
    by_cases hk : k = dKey r
    · rw [if_pos hk, if_pos hk, if_pos hany]
    · rw [if_neg hk, if_neg hk]
  · rename_i hany
    rw [List.find?_append]
    by_cases hk : k = dKey r
    · subst hk
      rw [if_pos rfl]
      have hnone : l.find? (fun d => dKey d == dKey r) = none :=
        List.find?_eq_none.mpr (fun x hx hpx => hany (List.any_eq_true.mpr ⟨x, hx, hpx⟩))
      rw [hnone]
      simp [List.find?_cons]
    · rw [if_neg hk]
      have h1 : (dKey r == k) = false := beq_eq_false_iff_ne.mpr (fun h => hk h.symm)
      have hone : List.find? (fun d => dKey d == k) [r] = none := by
        simp [List.find?_cons, h1]
      rw [hone, Option.or_none]

/-- Upserting never removes a key. -/
theorem mem_dailyKeys_upsert (l : List DailyRow) (r : DailyRow) (k : Nat × Nat)
    (h : k ∈ dailyKeys l) : k ∈ dailyKeys (upsertDaily l r) := by
  rw [dailyKeys_upsert]
  split
  · exact h
  · exact List.mem_append_left _ h

/-- Nodup keys are preserved by an upsert. -/
theorem nodup_dailyKeys_upsert (l : List DailyRow) (r : DailyRow)
    (h : (dailyKeys l).Nodup) : (dailyKeys (upsertDaily l r)).Nodup := by
  rw [dailyKeys_upsert]
  split
  · exact h
  · rename_i hany
    rw [List.nodup_append]
    refine ⟨h, List.nodup_singleton _, ?_⟩
    intro x hx hx2
    rw [List.mem_singleton] at hx2
    subst hx2
    exact hany ((mem_dailyKeys_iff l (dKey r)).mp hx)

/-- A batch fold never removes a key. -/
theorem mem_dailyKeys_foldl (rows : List DailyRow) :
    ∀ (l : List DailyRow) (k : Nat × Nat), k ∈ dailyKeys l →
      k ∈ dailyKeys (rows.foldl upsertDaily l) := by
  induction rows with
  | nil => intro l k h; exact h
  | cons r rs ih =>
    intro l k h
    rw [List.foldl_cons]
    exact ih _ k (mem_dailyKeys_upsert l r k h)

/-- Every key of the batch is present after the fold. -/
theorem batch_key_mem_foldl (rows : List DailyRow) :
    ∀ (l : List DailyRow) (r : DailyRow), r ∈ rows →
      dKey r ∈ dailyKeys (rows.foldl upsertDaily l) := by
  induction rows with
  | nil => intro l r h; cases h
  | cons x rs ih =>
    intro l r h
    rw [List.foldl_cons]
    cases h with
    | head =>
      refine mem_dailyKeys_foldl rs _ _ ?_
      rw [dailyKeys_upsert]
      split
      · rename_i hany
        exact (mem_dailyKeys_iff l _).mpr hany
      · exact List.mem_append_right _ (List.mem_singleton.mpr rfl)
    | tail _ h2 => exact ih _ r h2

/-- When every batch key is already present, the fold keeps the key
sequence unchanged. -/
theorem dailyKeys_foldl_id (rows : List DailyRow) :
    ∀ (l : List DailyRow), (∀ r ∈ rows, dKey r ∈ dailyKeys l) →
      dailyKeys (rows.foldl upsertDaily l) = dailyKeys l := by
  induction rows with
  | nil => intro l _; rfl
  | cons r rs ih =>
    intro l h
    rw [List.foldl_cons]
    have hpres : (l.any fun d => dKey d == dKey r) = true :=
      (mem_dailyKeys_iff l (dKey r)).mp (h r (List.mem_cons_self r rs))
    have hkeys : dailyKeys (upsertDaily l r) = dailyKeys l := by
      rw [dailyKeys_upsert, if_pos hpres]
    rw [ih (upsertDaily l r) (fun x hx => hkeys ▸ h x (List.mem_cons_of_mem r hx)), hkeys]

/-- Nodup keys are preserved by a batch fold. -/
theorem nodup_dailyKeys_foldl (rows : List DailyRow) :
    ∀ (l : List DailyRow), (dailyKeys l).Nodup →
      (dailyKeys (rows.foldl upsertDaily l)).Nodup := by
  induction rows with
  | nil => intro l h; exact h
  | cons r rs ih =>
    intro l h
    rw [List.foldl_cons]
    exact ih _ (nodup_dailyKeys_upsert l r h)

/-- Unfolding equation of `lastMatch` on a cons. -/
theorem lastMatch_cons (r : DailyRow) (rs : List DailyRow) (k : Nat × Nat) :
    lastMatch (r :: rs) k =
      match lastMatch rs k with
      | some x => some x
      | none => if dKey r == k then some r else none := rfl

/-- Lookup after a batch fold: the batch's last write for the key if there
is one, the original entry otherwise. -/
theorem getDaily_foldl (rows : List DailyRow) :
    ∀ (l : List DailyRow) (k : Nat × Nat),
      getDaily (rows.foldl upsertDaily l) k =
        match lastMatch rows k with
        | some x => some x
        | none => getDaily l k := by
  induction rows with
  | nil => intro l k; rfl
  | cons r rs ih =>
    intro l k
    rw [List.foldl_cons, ih, lastMatch_cons]
    cases hlm : lastMatch rs k with
    | some x => rfl
    | none =>
      by_cases hk : k = dKey r
      · subst hk
        simp [getDaily_upsert, beq_self_eq_true]
      · have h1 : (dKey r == k) = false := beq_eq_false_iff_ne.mpr (fun h => hk h.symm)
        simp [getDaily_upsert, h1, hk]

/-- Two daily tables with nodup keys, the same key sequence, and the same
lookups are the same table. -/
theorem dailyTable_ext :
    ∀ (l1 l2 : List DailyRow), (dailyKeys l1).Nodup → dailyKeys l1 = dailyKeys l2 →
      (∀ k, getDaily l1 k = getDaily l2 k) → l1 = l2
  | [], l2, _, hkeys, _ => by
    have : dailyKeys l2 = [] := hkeys.symm
    exact (List.map_eq_nil_iff.mp this).symm
  | a :: l1, l2, hnd, hkeys, hget => by
    cases l2 with
    | nil => exact absurd hkeys (by simp [dailyKeys])
    | cons b l2 =>
      have hkey_ab : dKey a = dKey b := by
        have := hkeys
        simp only [dailyKeys, List.map_cons, List.cons.injEq] at this
        exact this.1
      have hkeys_tl : dailyKeys l1 = dailyKeys l2 := by
        have := hkeys
        simp only [dailyKeys, List.map_cons, List.cons.injEq] at this
        exact this.2
      have hnd_tl : (dailyKeys l1).Nodup := (List.nodup_cons.mp hnd).2
      have ha_not : dKey a ∉ dailyKeys l1 := (List.nodup_cons.mp hnd).1
      have hab : a = b := by
        have h := hget (dKey a)
        unfold getDaily at h
        have hb : (dKey b == dKey a) = true := beq_iff_eq.mpr hkey_ab.symm
        simp only [List.find?_cons, beq_self_eq_true, hb] at h
        exact Option.some.inj h
      have hget_tl : ∀ k, getDaily l1 k = getDaily l2 k := by
        intro k
        by_cases hk : (dKey a == k) = true
        · have hka : dKey a = k := beq_iff_eq.mp hk
          have h1 : getDaily l1 k = none := by
            unfold getDaily
            rw [List.find?_eq_none]
            intro x hx hpx
            exact ha_not (hka ▸ (beq_iff_eq.mp hpx ▸ List.mem_map.mpr ⟨x, hx, rfl⟩))
          have h2 : getDaily l2 k = none := by
            unfold getDaily
            rw [List.find?_eq_none]
            intro x hx hpx
            have : dKey x ∈ dailyKeys l2 := List.mem_map.mpr ⟨x, hx, rfl⟩
            rw [← hkeys_tl] at this
            exact ha_not (hka ▸ (beq_iff_eq.mp hpx ▸ this))
          rw [h1, h2]
        · have hk' : (dKey a == k) = false := by simpa using hk
          have hbk : (dKey b == k) = false := by rw [← hkey_ab]; exact hk'
          have h := hget k
          unfold getDaily at h
          simp only [List.find?_cons, hk', hbk] at h
          exact h
      rw [hab, dailyTable_ext l1 l2 hnd_tl hkeys_tl hget_tl]

/-- Replaying the same batch over its own result changes nothing. -/
theorem foldl_upsert_idem (l : List DailyRow) (rows : List DailyRow)
    (h : (dailyKeys l).Nodup) :
    rows.foldl upsertDaily (rows.foldl upsertDaily l) = rows.foldl upsertDaily l := by
  apply dailyTable_ext
  · exact nodup_dailyKeys_foldl rows _ (nodup_dailyKeys_foldl rows l h)
  · exact dailyKeys_foldl_id rows _ (fun r hr => batch_key_mem_foldl rows l r hr)
  · intro k
    rw [getDaily_foldl rows (rows.foldl upsertDaily l) k, getDaily_foldl rows l k]
    cases hlm : lastMatch rows k with
    | some x => rfl
    | none => rfl

/-- Claim C4: `save_daily` (merge) is idempotent.  Merging a batch a second
time over whatever store the first merge produced returns exactly that
store — re-inserting an already-cached (entity, date) overwrites its numeric
fields instead of erroring or duplicating — and therefore fetching after
merging twice equals fetching after merging once, over every entity and
range.  `WFdaily` is the `(city_id, date)` primary-key uniqueness every
SQLite-backed store satisfies. -/
theorem merge_idempotent (st : Store) (name : String) (R : List InRec) (st1 : Store)
    (hw : WFdaily st) (h1 : save_daily st name R = some st1) :
    save_daily st1 name R = some st1 ∧
    ∀ st2, save_daily st1 name R = some st2 →
      ∀ city a b, get_daily_data st2 city a b = get_daily_data st1 city a b := by
  have hmain : save_daily st1 name R = some st1 := by
    by_cases hR : R.isEmpty = true
    · simp only [save_daily, hR, if_true] at h1 ⊢
    · have hR' : R.isEmpty = false := by simpa using hR
      cases hlc : lookupCity st name with
      | none =>
        simp only [save_daily, hR', Bool.false_eq_true, if_false, hlc] at h1
        have hst : st = st1 := Option.some.inj h1
        subst hst
        simp only [save_daily, hR', Bool.false_eq_true, if_false, hlc]
      | some c =>
        simp only [save_daily, hR', Bool.false_eq_true, if_false, hlc] at h1
        obtain ⟨rows, hrows, hst1⟩ := Option.map_eq_some'.mp h1
        have hlc1 : lookupCity st1 name = some c := by
          rw [← hst1]
          exact hlc
        have hrows1 : rowsToInsert c.id R = some rows := hrows
        simp only [save_daily, hR', Bool.false_eq_true, if_false, hlc1, hrows1,
          Option.map_some']
        rw [← hst1]
        dsimp only
        rw [foldl_upsert_idem st.daily rows hw]
  refine ⟨hmain, ?_⟩
  intro st2 h2 city a b
  rw [hmain] at h2
  have := Option.some.inj h2
  subst this
  rfl

/-- Witness for C4 at a concrete input: a two-row batch merged into the
Calgary store, once and then again, yielding the same store (the first row
overwrites the cached 2020-01-01 entry, the second is appended). -/
theorem merge_idempotent_witness :
    save_daily calgaryStore "Calgary"
        [⟨"2020-01-01", some 5, some 1, some 9⟩, ⟨"2020-01-02", some 6, some 2, some 8⟩] =
      some ⟨[⟨1, "Calgary", 51, -114⟩], 2,
            [⟨1, 20200101, some 5, some 1, some 9⟩, ⟨1, 20200102, some 6, some 2, some 8⟩]⟩ ∧
    save_daily
        ⟨[⟨1, "Calgary", 51, -114⟩], 2,
         [⟨1, 20200101, some 5, some 1, some 9⟩, ⟨1, 20200102, some 6, some 2, some 8⟩]⟩
        "Calgary"
        [⟨"2020-01-01", some 5, some 1, some 9⟩, ⟨"2020-01-02", some 6, some 2, some 8⟩] =
      some ⟨[⟨1, "Calgary", 51, -114⟩], 2,
            [⟨1, 20200101, some 5, some 1, some 9⟩, ⟨1, 20200102, some 6, some 2, some 8⟩]⟩ := by
  have h := merge_idempotent calgaryStore "Calgary"
    [⟨"2020-01-01", some 5, some 1, some 9⟩, ⟨"2020-01-02", some 6, some 2, some 8⟩]
    ⟨[⟨1, "Calgary", 51, -114⟩], 2,
     [⟨1, 20200101, some 5, some 1, some 9⟩, ⟨1, 20200102, some 6, some 2, some 8⟩]⟩
    (by unfold WFdaily; decide) (by decide)
  exact ⟨by decide, h.1⟩

/-- The packed payload is eight bytes per value. -/
theorem packValues_length (vs : List Nat) : (packValues vs).length = 8 * vs.length := by
  induction vs with
  | nil => rfl
  | cons v vs ih =>
    simp only [packValues, List.flatMap_cons, List.length_append] at ih ⊢
    simp only [leBytes, List.length_cons, List.length_nil]
    omega

/-- Unpacking inverts packing for genuine 64-bit words. -/
theorem unpackWords_packValues (vs : List Nat) (h : ∀ v ∈ vs, v < 2 ^ 64) :
    unpackWords (packValues vs) = vs := by
  induction vs with
  | nil => rfl
  | cons v vs ih =>
    have hv : v < 2 ^ 64 := h v (List.mem_cons_self v vs)
    have hrest : ∀ x ∈ vs, x < 2 ^ 64 := fun x hx => h x (List.mem_cons_of_mem v hx)
    have hstep : unpackWords (packValues (v :: vs)) =
        wordOfBytes (v % 256) (v / 256 % 256) (v / 256 ^ 2 % 256) (v / 256 ^ 3 % 256)
          (v / 256 ^ 4 % 256) (v / 256 ^ 5 % 256) (v / 256 ^ 6 % 256) (v / 256 ^ 7 % 256) ::
        unpackWords (packValues vs) := rfl
    rw [hstep, ih hrest]
    have hw : wordOfBytes (v % 256) (v / 256 % 256) (v / 256 ^ 2 % 256) (v / 256 ^ 3 % 256)
        (v / 256 ^ 4 % 256) (v / 256 ^ 5 % 256) (v / 256 ^ 6 % 256) (v / 256 ^ 7 % 256) = v := by
      unfold wordOfBytes
      norm_num
      omega
    rw [hw]

/-- The MSC series builder appends values strictly in (timestamp, value)
pairs. -/
theorem mscSeriesValues_even (tsOf : String → Option Flt) (sid stor : String) :
    ∀ obs : List Obs, (mscSeriesValues tsOf sid stor obs).length % 2 = 0
  | [] => rfl
  | o :: os => by
    simp only [mscSeriesValues]
    cases tsOf o.date with
    | none => exact mscSeriesValues_even tsOf sid stor os
    | some t =>
      cases obsVal sid o with
      | none => exact mscSeriesValues_even tsOf sid stor os
      | some v =>
        have ih := mscSeriesValues_even tsOf sid stor os
        dsimp only
        by_cases hs : (stor == "interleaved") = true
        · rw [if_pos hs]
          simp only [List.length_cons]
          omega
        · rw [if_neg hs]
          simp only [List.length_cons]
          omega

/-- The open-meteo series builder appends values strictly in
(timestamp, value) pairs. -/
theorem omValuesOf_even (tsOf : String → Option Flt) :
    ∀ rows : List (String × Flt), (omValuesOf tsOf rows).length % 2 = 0
  | [] => rfl
  | r :: rs => by
    simp only [omValuesOf]
    cases tsOf r.1 with
    | none => exact omValuesOf_even tsOf rs
    | some t =>
      have ih := omValuesOf_even tsOf rs
      simp only [List.length_cons]
      omega

/-- Claim C2: a binary frame for values `v` (modelled by their 64-bit
patterns) declares `length = 8 * len(v)` bytes in its header, carries
exactly that many payload bytes, and decoding the frame (taking `length`
bytes after the header and regrouping them as little-endian 64-bit words)
yields back exactly `v`; and the value vectors the two plugins actually
frame with `storage="interleaved"` always have even length, being built in
(timestamp, value) pairs. -/
theorem binary_frame_roundtrip :
    (∀ (vs : List Nat) (stor : String),
      (send_binary_data vs stor).1.length = 8 * vs.length ∧
      (send_binary_data vs stor).1.storage = stor ∧
      (send_binary_data vs stor).2.length = (send_binary_data vs stor).1.length) ∧
    (∀ (vs extra : List Nat), (∀ v ∈ vs, v < 2 ^ 64) →
      readBinaryFrame (send_binary_data vs "interleaved").1
        ((send_binary_data vs "interleaved").2 ++ extra) = vs) ∧
    (∀ (tsOf : String → Option Flt) (sid stor : String) (obs : List Obs),
      (mscSeriesValues tsOf sid stor obs).length % 2 = 0) ∧
    (∀ (tsOf : String → Option Flt) (rows : List (String × Flt)),
      (omValuesOf tsOf rows).length % 2 = 0) := by
  refine ⟨?_, ?_, mscSeriesValues_even, omValuesOf_even⟩
  · intro vs stor
    refine ⟨by simp [send_binary_data]; omega, rfl, ?_⟩
    simp [send_binary_data, packValues_length]
    omega
  · intro vs extra h
    unfold readBinaryFrame send_binary_data
    have hlen : vs.length * 8 = (packValues vs).length := by rw [packValues_length]; omega
    rw [hlen, List.take_left]
    exact unpackWords_packValues vs h

/-- Witness for C2 at a concrete input: a three-value frame (one value
using the full 64-bit range) round-trips through the codec even with
trailing bytes behind the payload, and concrete runs of both series
builders have even length. -/
theorem binary_frame_roundtrip_witness :
    readBinaryFrame (send_binary_data [5, 2 ^ 63 + 17, 0] "interleaved").1
      ((send_binary_data [5, 2 ^ 63 + 17, 0] "interleaved").2 ++ [9, 9]) = [5, 2 ^ 63 + 17, 0] ∧
    (mscSeriesValues (fun _ => some 7) "mean_temp" "interleaved"
      [⟨"2020-01-01", some 1, some 0, some 2⟩]).length % 2 = 0 :=
  ⟨binary_frame_roundtrip.2.1 [5, 2 ^ 63 + 17, 0] [9, 9] (by decide),
   binary_frame_roundtrip.2.2.1 (fun _ => some 7) "mean_temp" "interleaved"
     [⟨"2020-01-01", some 1, some 0, some 2⟩]⟩

/-- The digit character of `d < 10` carries `48 + d` and passes `isDig`. -/
theorem digitCh_spec (d : Nat) (h : d < 10) :
    (digitCh d).toNat = 48 + d ∧ isDig (digitCh d) = true := by
  interval_cases d <;> exact ⟨by decide, by decide⟩

/-- With enough fuel, the digit printer emits a non-empty all-digit string
whose value folds back to `n`. -/
theorem natCharsAux_spec : ∀ (fuel n : Nat), n < fuel →
    natCharsAux fuel n ≠ [] ∧
    (∀ c ∈ natCharsAux fuel n, isDig c = true) ∧
    (∀ a : Nat, (natCharsAux fuel n).foldl (fun x c => x * 10 + (c.toNat - 48)) a =
      a * 10 ^ (natCharsAux fuel n).length + n)
  | 0, n, h => absurd h (Nat.not_lt_zero n)
  | fuel + 1, n, h => by
    by_cases h10 : n < 10
    · simp only [natCharsAux, if_pos h10]
      refine ⟨by simp, ?_, ?_⟩
      · intro c hc
        rw [List.mem_singleton] at hc
        subst hc
        exact (digitCh_spec n h10).2
      · intro a
        simp only [List.foldl_cons, List.foldl_nil, List.length_cons, List.length_nil,
          (digitCh_spec n h10).1]
        ring_nf
        omega
    · have hd : n / 10 < fuel := by omega
      obtain ⟨ih1, ih2, ih3⟩ := natCharsAux_spec fuel (n / 10) hd
      simp only [natCharsAux, if_neg h10]
      refine ⟨by simp, ?_, ?_⟩
      · intro c hc
        rw [List.mem_append] at hc
        cases hc with
        | inl hc => exact ih2 c hc
        | inr hc =>
          rw [List.mem_singleton] at hc
          subst hc
          exact (digitCh_spec (n % 10) (Nat.mod_lt n (by omega))).2
      · intro a
        rw [List.foldl_append, ih3 a, List.length_append]
        simp only [List.foldl_cons, List.foldl_nil, List.length_cons, List.length_nil,
          (digitCh_spec (n % 10) (Nat.mod_lt n (by omega))).1]
        rw [pow_add]
        have hk : (0:Nat) < 10 ^ (natCharsAux fuel (n / 10)).length := Nat.pos_pow_of_pos _ (by omega)
        generalize 10 ^ (natCharsAux fuel (n / 10)).length = k at hk ⊢
        ring_nf
        omega

/-- `str(n)` is non-empty and all digits. -/
theorem natChars_facts (n : Nat) :
    natChars n ≠ [] ∧ (∀ c ∈ natChars n, isDig c = true) := by
  obtain ⟨h1, h2, _⟩ := natCharsAux_spec (n + 1) n (by omega)
  exact ⟨h1, h2⟩

/-- Folding the decimal digits of `str(n)` recovers `n`. -/
theorem natChars_foldl (n : Nat) :
    (natChars n).foldl (fun x c => x * 10 + (c.toNat - 48)) 0 = n := by
  obtain ⟨_, _, h3⟩ := natCharsAux_spec (n + 1) n (by omega)
  simpa using h3 0

/-- The digit scanner splits an all-digit run from a non-digit-headed
remainder. -/
theorem digitSpan_append (ds rest : List Char) (hds : ∀ c ∈ ds, isDig c = true)
    (hrest : noDigitHead rest = true) : digitSpan (ds ++ rest) = (ds, rest) := by
  induction ds with
  | nil =>
    cases rest with
    | nil => rfl
    | cons c r =>
      have hcd : isDig c = false := by simpa [noDigitHead] using hrest
      simp [digitSpan, hcd]
  | cons c ds ih =>
    have hc : isDig c = true := hds c (List.mem_cons_self c ds)
    simp only [List.cons_append, digitSpan, hc, if_true, List.append_eq]
    rw [ih (fun x hx => hds x (List.mem_cons_of_mem c hx))]

/-- Reading a decimal number inverts the printer. -/
theorem readNat_natChars (n : Nat) (rest : List Char) (hrest : noDigitHead rest = true) :
    readNat (natChars n ++ rest) = some (n, rest) := by
  obtain ⟨h1, h2⟩ := natChars_facts n
  unfold readNat
  rw [digitSpan_append (natChars n) rest h2 hrest]
  have hfold := natChars_foldl n
  cases hnc : natChars n with
  | nil => exact absurd hnc h1
  | cons c2 cs2 =>
    rw [hnc] at hfold
    simp only [hfold]

/-- Characters with different code points compare `==` as `false`. -/
theorem char_beq_false (a b : Char) (h : a.toNat ≠ b.toNat) : (a == b) = false := by
  simp only [beq_eq_false_iff_ne]
  intro he; exact h (by rw [he])

/-- Every `Char` carries a scalar value: below the surrogate block, or
above it and below `0x110000`. -/
theorem char_toNat_valid (c : Char) :
    c.toNat < 55296 ∨ (57343 < c.toNat ∧ c.toNat < 1114112) := by
  have h := c.valid
  unfold UInt32.isValidChar Nat.isValidChar at h
  exact h

/-- `skipWs` steps over one character by its whitespace test. -/
theorem skipWs_cons (c : Char) (cs : List Char) :
    skipWs (c :: cs) = if jsWs c then skipWs cs else c :: cs := by
  simp [skipWs, List.dropWhile_cons]

/-- A non-whitespace head stops `skipWs`. -/
theorem skipWs_not (c : Char) (cs : List Char) (h : jsWs c = false) :
    skipWs (c :: cs) = c :: cs := by
  rw [skipWs_cons]; simp [h]

/-- `skipWs` absorbs a leading space. -/
theorem skipWs_space (cs : List Char) : skipWs (' ' :: cs) = skipWs cs := by
  rw [skipWs_cons]; simp [jsWs]

/-- `isDig` bounds the code point. -/
theorem isDig_toNat (c : Char) (h : isDig c = true) : 48 ≤ c.toNat ∧ c.toNat ≤ 57 := by
  simpa [isDig, Bool.and_eq_true, decide_eq_true_eq] using h

/-- A digit head takes none of the keyword, string, container, sign or
separator branches of the readers, and is not whitespace. -/
theorem isDig_branches (c : Char) (h : isDig c = true) :
    (c == 'n') = false ∧ (c == 't') = false ∧ (c == 'f') = false ∧
    (c == '"') = false ∧ (c == '[') = false ∧ (c == '{') = false ∧
    (c == '-') = false ∧ jsWs c = false ∧ (c == ']') = false ∧
    (c == '}') = false ∧ (c == ',') = false := by
  obtain ⟨h1, h2⟩ := isDig_toNat c h
  refine ⟨?_, ?_, ?_, ?_, ?_, ?_, ?_, ?_, ?_, ?_, ?_⟩
  · apply char_beq_false; have : Char.toNat 'n' = 110 := (by decide); omega
  · apply char_beq_false; have : Char.toNat 't' = 116 := (by decide); omega
  · apply char_beq_false; have : Char.toNat 'f' = 102 := (by decide); omega
  · apply char_beq_false; have : Char.toNat '"' = 34 := (by decide); omega
  · apply char_beq_false; have : Char.toNat '[' = 91 := (by decide); omega
  · apply char_beq_false; have : Char.toNat '{' = 123 := (by decide); omega
  · apply char_beq_false; have : Char.toNat '-' = 45 := (by decide); omega
  · simp only [jsWs, Bool.or_eq_false_iff]
    refine ⟨⟨⟨?_, ?_⟩, ?_⟩, ?_⟩ <;>
      (apply char_beq_false; first
        | (have : Char.toNat ' ' = 32 := (by decide); omega)
        | (have : Char.toNat '\t' = 9 := (by decide); omega)
        | (have : Char.toNat '\n' = 10 := (by decide); omega)
        | (have : Char.toNat '\r' = 13 := (by decide); omega))
  · apply char_beq_false; have : Char.toNat ']' = 93 := (by decide); omega
  · apply char_beq_false; have : Char.toNat '}' = 125 := (by decide); omega
  · apply char_beq_false; have : Char.toNat ',' = 44 := (by decide); omega

/-- `hexNib` reads back the lowercase hex digit of a nibble. -/
theorem hexNib_hexDig (d : Nat) (h : d < 16) : hexNib (hexDig d) = some d := by
  interval_cases d <;> decide

/-- `hexQuad` reads back the four digits of a `\uXXXX` escape. -/
theorem hexQuad_uEsc (n : Nat) (h : n < 65536) :
    hexQuad (hexDig (n / 4096 % 16)) (hexDig (n / 256 % 16))
      (hexDig (n / 16 % 16)) (hexDig (n % 16)) = some n := by
  unfold hexQuad
  rw [hexNib_hexDig _ (by omega), hexNib_hexDig _ (by omega),
      hexNib_hexDig _ (by omega), hexNib_hexDig _ (by omega)]
  simp only [Option.bind_eq_bind, Option.some_bind]
  congr 1
  omega

/-- Defining equation of `strBody` at a successor and a cons. -/
theorem strBody_succ_cons (fuel : Nat) (ch : Char) (r : List Char) :
    strBody (fuel + 1) (ch :: r) =
      (if ch == '"' then some ([], r)
       else if ch == '\\' then
         match escParse r with
         | some (c2, r1) => (strBody fuel r1).map (fun k => (c2 :: k.1, k.2))
         | none => none
       else if ch.toNat < 32 then none
       else (strBody fuel r).map (fun k => (ch :: k.1, k.2))) := rfl

/-- Defining equation of `escParse` at a cons. -/
theorem escParse_cons (e : Char) (r1 : List Char) :
    escParse (e :: r1) =
      (if e == 'u' then escU r1
       else
         match escTable e with
         | some c2 => some (c2, r1)
         | none => none) := rfl

/-- Defining equation of `escU` on four digits. -/
theorem escU_cons (a b c d : Char) (r2 : List Char) :
    escU (a :: b :: c :: d :: r2) =
      (match hexQuad a b c d with
       | none => none
       | some h =>
         if 55296 ≤ h ∧ h ≤ 56319 then escLow h r2
         else if 56320 ≤ h ∧ h ≤ 57343 then none
         else some (Char.ofNat h, r2)) := rfl

/-- Defining equation of `escLow` on a six-character escape. -/
theorem escLow_cons (h : Nat) (e2 e3 a2 b2 c2 d2 : Char) (r3 : List Char) :
    escLow h (e2 :: e3 :: a2 :: b2 :: c2 :: d2 :: r3) =
      (if e2 == '\\' && e3 == 'u' then
        match hexQuad a2 b2 c2 d2 with
        | none => none
        | some l =>
          if 56320 ≤ l ∧ l ≤ 57343 then
            some (Char.ofNat (65536 + (h - 55296) * 1024 + (l - 56320)), r3)
          else none
      else none) := rfl

/-- Scanning a surrogate-pair escape recombines the two code units. -/
theorem strBody_surrogate (h l : Nat) (rest : List Char) (fuel : Nat)
    (hh : 55296 ≤ h) (hh2 : h ≤ 56319) (hl : 56320 ≤ l) (hl2 : l ≤ 57343) :
    strBody (fuel + 1) (uEsc h ++ uEsc l ++ rest) =
      (strBody fuel rest).map
        (fun k => (Char.ofNat (65536 + (h - 55296) * 1024 + (l - 56320)) :: k.1, k.2)) := by
  simp only [uEsc, List.cons_append, List.nil_append, List.append_assoc]
  rw [strBody_succ_cons]
  simp only [show (('\\' : Char) == '"') = false from rfl,
    show (('\\' : Char) == '\\') = true from rfl,
    Bool.false_eq_true, if_false, if_true]
  rw [escParse_cons]
  simp only [show (('u' : Char) == 'u') = true from rfl, if_true]
  rw [escU_cons, hexQuad_uEsc _ (by omega)]
  dsimp only
  rw [if_pos (by omega)]
  rw [escLow_cons]
  simp only [show (('\\' : Char) == '\\') = true from rfl,
    show (('u' : Char) == 'u') = true from rfl, Bool.and_self, if_true]
  rw [hexQuad_uEsc _ (by omega)]
  dsimp only
  rw [if_pos (by omega)]

/-- The string scanner undoes `escChar`: scanning one escaped character
costs one unit of fuel and prepends the character to the remaining scan. -/
theorem escChar_inverse (c : Char) (rest : List Char) (fuel : Nat) :
    strBody (fuel + 1) (escChar c ++ rest) =
      (strBody fuel rest).map (fun k => (c :: k.1, k.2)) := by
  by_cases hq : c = '"'
  · subst hq; rfl
  by_cases hb : c = '\\'
  · subst hb; rfl
  by_cases hn : c = '\n'
  · subst hn; rfl
  by_cases hr : c = '\r'
  · subst hr; rfl
  by_cases ht : c = '\t'
  · subst ht; rfl
  by_cases h8 : c.toNat = 8
  · have h : Char.ofNat 8 = c := by rw [← h8]; exact Char.ofNat_toNat c
    subst h; rfl
  by_cases h12 : c.toNat = 12
  · have h : Char.ofNat 12 = c := by rw [← h12]; exact Char.ofNat_toNat c
    subst h; rfl
  have eq1 : (c == '"') = false := beq_eq_false_iff_ne.mpr hq
  have eq2 : (c == '\\') = false := beq_eq_false_iff_ne.mpr hb
  have eq3 : (c == '\n') = false := beq_eq_false_iff_ne.mpr hn
  have eq4 : (c == '\r') = false := beq_eq_false_iff_ne.mpr hr
  have eq5 : (c == '\t') = false := beq_eq_false_iff_ne.mpr ht
  have eq8 : (c.toNat == 8) = false := by simp [h8]
  have eq12 : (c.toNat == 12) = false := by simp [h12]
  have hvalid := char_toNat_valid c
  by_cases hp : 32 ≤ c.toNat ∧ c.toNat ≤ 126
  · have hesc : escChar c = [c] := by
      simp only [escChar, eq1, eq2, eq3, eq4, eq5, eq8, eq12,
        Bool.false_eq_true, if_false, if_pos hp]
    rw [hesc, List.singleton_append, strBody_succ_cons]
    simp only [eq1, eq2, Bool.false_eq_true, if_false]
    rw [if_neg (by omega)]
  by_cases h16 : c.toNat < 65536
  · have hesc : escChar c = uEsc c.toNat := by
      simp only [escChar, eq1, eq2, eq3, eq4, eq5, eq8, eq12,
        Bool.false_eq_true, if_false]
      rw [if_neg hp, if_pos h16]
    rw [hesc]
    simp only [uEsc, List.cons_append, List.nil_append]
    rw [strBody_succ_cons]
    simp only [show (('\\' : Char) == '"') = false from rfl,
      show (('\\' : Char) == '\\') = true from rfl,
      Bool.false_eq_true, if_false, if_true]
    rw [escParse_cons]
    simp only [show (('u' : Char) == 'u') = true from rfl, if_true]
    rw [escU_cons, hexQuad_uEsc c.toNat h16]
    dsimp only
    rw [if_neg (by omega), if_neg (by omega)]
    dsimp only
    rw [Char.ofNat_toNat]
  · have hesc : escChar c =
        uEsc (55296 + (c.toNat - 65536) / 1024) ++ uEsc (56320 + (c.toNat - 65536) % 1024) := by
      simp only [escChar, eq1, eq2, eq3, eq4, eq5, eq8, eq12,
        Bool.false_eq_true, if_false]
      rw [if_neg hp, if_neg h16]
    rw [hesc, strBody_surrogate (55296 + (c.toNat - 65536) / 1024)
      (56320 + (c.toNat - 65536) % 1024) rest fuel
      (by omega) (by omega) (by omega) (by omega)]
    have harith : 65536 + (55296 + (c.toNat - 65536) / 1024 - 55296) * 1024 +
        (56320 + (c.toNat - 65536) % 1024 - 56320) = c.toNat := by omega
    rw [harith, Char.ofNat_toNat]

theorem readVal_succ_cons (fuel : Nat) (ch : Char) (r : List Char) :
    readVal (fuel + 1) (ch :: r) =
      (if ch == 'n' then kwNull r
       else if ch == 't' then kwTrue r
       else if ch == 'f' then kwFalse r
       else if ch == '"' then (strBody (r.length + 1) r).map (fun k => (.jstr k.1, k.2))
       else if ch == '[' then
         match skipWs r with
         | [] => none
         | c :: r2 =>
           if c == ']' then some (.jarr [], r2)
           else (readItems fuel (c :: r2)).map (fun k => (.jarr k.1, k.2))
       else if ch == '{' then
         match skipWs r with
         | [] => none
         | c :: r2 =>
           if c == '}' then some (.jobj [], r2)
           else (readPairs fuel (c :: r2)).map (fun k => (.jobj (pyDictOf k.1), k.2))
       else if ch == '-' then (readNat r).map (fun k => (.jint (-(k.1 : Int)), k.2))
       else if isDig ch then (readNat (ch :: r)).map (fun k => (.jint (k.1 : Int), k.2))
       else none) := rfl

/-- Defining equation of `readItems` at a successor. -/
theorem readItems_succ (fuel : Nat) (cs : List Char) :
    readItems (fuel + 1) cs = (do
      let (v, r) ← readVal fuel (skipWs cs)
      match skipWs r with
      | ',' :: r2 => (readItems fuel r2).map (fun k => (v :: k.1, k.2))
      | ']' :: r2 => some ([v], r2)
      | _ => none) := rfl

/-- Defining equation of `readPairs` at a successor. -/
theorem readPairs_succ (fuel : Nat) (cs : List Char) :
    readPairs (fuel + 1) cs = (match skipWs cs with
      | '"' :: r => do
        let (key, r1) ← strBody (r.length + 1) r
        match skipWs r1 with
        | ':' :: r2 => do
          let (v, r3) ← readVal fuel (skipWs r2)
          match skipWs r3 with
          | ',' :: r4 => (readPairs fuel r4).map (fun k => ((key, v) :: k.1, k.2))
          | '}' :: r4 => some ([(key, v)], r4)
          | _ => none
        | _ => none
      | _ => none) := rfl

/-- Every character escapes to at least one character. -/
theorem escChar_length_pos (c : Char) : 1 ≤ (escChar c).length := by
  unfold escChar
  repeat' split
  all_goals simp [uEsc]

/-- Escaping a string never shortens it. -/
theorem length_le_flatMap_escChar (s : List Char) :
    s.length ≤ (s.flatMap escChar).length := by
  induction s with
  | nil => simp
  | cons c s ih =>
    have := escChar_length_pos c
    simp only [List.flatMap_cons, List.length_append, List.length_cons]
    omega

/-- The string scanner undoes the escaping of a whole string, given fuel
above its length, stopping at the closing quote. -/
theorem strBody_strLit (s : List Char) : ∀ (fuel : Nat), s.length < fuel → ∀ (rest : List Char),
    strBody fuel (s.flatMap escChar ++ ('"' :: rest)) = some (s, rest) := by
  induction s with
  | nil =>
    intro fuel hf rest
    obtain ⟨f, rfl⟩ : ∃ f, fuel = f + 1 := ⟨fuel - 1, by omega⟩
    simp only [List.flatMap_nil, List.nil_append]
    rw [strBody_succ_cons]
    simp
  | cons c s ih =>
    intro fuel hf rest
    obtain ⟨f, rfl⟩ : ∃ f, fuel = f + 1 := ⟨fuel - 1, by omega⟩
    simp only [List.flatMap_cons, List.append_assoc]
    rw [escChar_inverse c _ f, ih f (by simp at hf; omega) rest]
    rfl

/-- `dumps` output is never empty. -/
theorem dumps_length_pos (j : PyJson) : 1 ≤ (dumps j).length := by
  cases j with
  | jnull => decide
  | jbool b => cases b <;> decide
  | jint i =>
    obtain ⟨h1, _⟩ := natChars_facts i.natAbs
    obtain ⟨c, t, hct⟩ : ∃ c t, natChars i.natAbs = c :: t := by
      cases h : natChars i.natAbs with
      | nil => exact absurd h h1
      | cons c t => exact ⟨c, t, rfl⟩
    simp only [dumps, intChars, hct, List.length_append, List.length_cons]
    omega
  | jstr s => simp [dumps, strLit]
  | jarr es => simp [dumps]
  | jobj ps => simp [dumps]

/-- `dumps` output starts with a character that is neither whitespace nor a
closing bracket. -/
theorem dumps_head (j : PyJson) :
    ∃ c t, dumps j = c :: t ∧ jsWs c = false ∧ (c == ']') = false := by
  cases j with
  | jnull => exact ⟨'n', _, rfl, by decide, by decide⟩
  | jbool b =>
    cases b
    · exact ⟨'f', _, rfl, by decide, by decide⟩
    · exact ⟨'t', _, rfl, by decide, by decide⟩
  | jint i =>
    by_cases hi : i < 0
    · refine ⟨'-', natChars i.natAbs, ?_, by decide, by decide⟩
      simp [dumps, intChars, hi]
    · obtain ⟨h1, h2⟩ := natChars_facts i.natAbs
      obtain ⟨c, t, hct⟩ : ∃ c t, natChars i.natAbs = c :: t := by
        cases h : natChars i.natAbs with
        | nil => exact absurd h h1
        | cons c t => exact ⟨c, t, rfl⟩
      have hd : isDig c = true := h2 c (by rw [hct]; exact List.mem_cons_self c t)
      obtain ⟨_, _, _, _, _, _, _, hws, hrb, _, _⟩ := isDig_branches c hd
      refine ⟨c, t, ?_, hws, hrb⟩
      simp [dumps, intChars, hi, hct]
  | jstr s => exact ⟨'"', _, rfl, by decide, by decide⟩
  | jarr es => exact ⟨'[', _, rfl, by decide, by decide⟩
  | jobj ps => exact ⟨'{', _, rfl, by decide, by decide⟩

/-- `skipWs` does not enter serialised output. -/
theorem skipWs_dumps (j : PyJson) (X : List Char) :
    skipWs (dumps j ++ X) = dumps j ++ X := by
  obtain ⟨c, t, hct, hws, _⟩ := dumps_head j
  rw [hct, List.cons_append]
  exact skipWs_not _ _ hws

/-- Folding distinct-key members into a Python dict from any accumulator
disjoint from them just appends them in order. -/
theorem pyDictOf_acc (ps : List (List Char × PyJson)) :
    ∀ (m : List (List Char × PyJson)),
    noDupKeys (ps.map (fun p => p.1)) = true →
    (∀ p ∈ ps, m.any (fun q => q.1 == p.1) = false) →
    ps.foldl (fun m p => pyDictUpd m p.1 p.2) m = m ++ ps := by
  induction ps with
  | nil => intro m _ _; simp
  | cons p ps ih =>
    intro m hnd hdisj
    simp only [List.map_cons, noDupKeys, Bool.and_eq_true, Bool.not_eq_true',
      List.contains_eq_any_beq] at hnd
    obtain ⟨hnd1, hnd2⟩ := hnd
    have hm : m.any (fun q => q.1 == p.1) = false := hdisj p (List.mem_cons_self p ps)
    simp only [List.foldl_cons]
    have hstep : pyDictUpd m p.1 p.2 = m ++ [(p.1, p.2)] := by
      simp only [pyDictUpd, hm, Bool.false_eq_true, if_false]
    rw [hstep, ih (m ++ [(p.1, p.2)]) hnd2 ?_]
    · simp
    · intro q hq
      simp only [List.any_append, Bool.or_eq_false_iff]
      constructor
      · exact hdisj q (List.mem_cons_of_mem p hq)
      · simp only [List.any_cons, List.any_nil, Bool.or_false]
        have hne : ¬(p.1 == q.1) = true := by
          rw [List.any_eq_false] at hnd1
          exact hnd1 q.1 (List.mem_map_of_mem (fun r => r.1) hq)
        rw [beq_iff_eq] at hne
        rw [beq_eq_false_iff_ne]
        exact fun he => hne he

/-- Parsed members with distinct keys rebuild exactly themselves as a
Python dict. -/
theorem pyDictOf_id (ps : List (List Char × PyJson))
    (h : noDupKeys (ps.map (fun p => p.1)) = true) : pyDictOf ps = ps := by
  unfold pyDictOf
  rw [pyDictOf_acc ps [] h (fun p _ => rfl)]
  simp

/-- `noDigitHead` at a cons. -/
theorem noDigitHead_cons (c : Char) (X : List Char) :
    noDigitHead (c :: X) = !isDig c := rfl

/-- `readItems` ignores one leading space. -/
theorem readItems_skip (f : Nat) (cs : List Char) :
    readItems f (' ' :: cs) = readItems f cs := by
  cases f with
  | zero => rfl
  | succ g => rw [readItems_succ, readItems_succ, skipWs_space]

/-- `readPairs` ignores one leading space. -/
theorem readPairs_skip (f : Nat) (cs : List Char) :
    readPairs f (' ' :: cs) = readPairs f cs := by
  cases f with
  | zero => rfl
  | succ g => rw [readPairs_succ, readPairs_succ, skipWs_space]

/-- `readPairs` at a quote: scan the key string, then the colon, the value
and the separator. -/
theorem readPairs_quote (f : Nat) (r : List Char) :
    readPairs (f + 1) ('"' :: r) = (do
      let (key, r1) ← strBody (r.length + 1) r
      match skipWs r1 with
      | ':' :: r2 => do
        let (v, r3) ← readVal f (skipWs r2)
        match skipWs r3 with
        | ',' :: r4 => (readPairs f r4).map (fun k => ((key, v) :: k.1, k.2))
        | '}' :: r4 => some ([(key, v)], r4)
        | _ => none
      | _ => none) := rfl

/-- The reader undoes the serialiser: one value, one item list, or one
member list, each followed by its closing context, with any fuel above the
serialised length. -/
theorem readVal_dumps_fuel : ∀ fuel : Nat,
    (∀ j rest, wfVal j = true → (dumps j).length ≤ fuel → noDigitHead rest = true →
      readVal fuel (dumps j ++ rest) = some (j, rest)) ∧
    (∀ es rest, wfItems es = true → es ≠ [] → (dumpsItems es).length + 1 ≤ fuel →
      readItems fuel (dumpsItems es ++ (']' :: rest)) = some (es, rest)) ∧
    (∀ ps rest, wfMembers ps = true → ps ≠ [] → (dumpsPairs ps).length + 1 ≤ fuel →
      readPairs fuel (dumpsPairs ps ++ ('}' :: rest)) = some (ps, rest)) := by
  intro fuel
  induction fuel with
  | zero =>
    refine ⟨?_, ?_, ?_⟩
    · intro j rest _ hfl _
      have := dumps_length_pos j
      omega
    · intro es rest _ _ hfl
      omega
    · intro ps rest _ _ hfl
      omega
  | succ f ih =>
    obtain ⟨ihv, ihi, ihp⟩ := ih
    refine ⟨?_, ?_, ?_⟩
    · intro j rest hwf hfl hrest
      cases j with
      | jnull => rfl
      | jbool b => cases b <;> rfl
      | jint i =>
        by_cases hi : i < 0
        · have hd : dumps (.jint i) = '-' :: natChars i.natAbs := by
            simp [dumps, intChars, hi]
          rw [hd, List.cons_append, readVal_succ_cons]
          simp only [show (('-' : Char) == 'n') = false from rfl,
            show (('-' : Char) == 't') = false from rfl,
            show (('-' : Char) == 'f') = false from rfl,
            show (('-' : Char) == '"') = false from rfl,
            show (('-' : Char) == '[') = false from rfl,
            show (('-' : Char) == '{') = false from rfl,
            show (('-' : Char) == '-') = true from rfl,
            Bool.false_eq_true, if_false, if_true]
          rw [readNat_natChars i.natAbs rest hrest]
          simp only [Option.map_some']
          have : -(i.natAbs : Int) = i := by omega
          rw [this]
        · obtain ⟨h1, h2⟩ := natChars_facts i.natAbs
          obtain ⟨c, t, hct⟩ : ∃ c t, natChars i.natAbs = c :: t := by
            cases h : natChars i.natAbs with
            | nil => exact absurd h h1
            | cons c t => exact ⟨c, t, rfl⟩
          have hd : dumps (.jint i) = natChars i.natAbs := by
            simp [dumps, intChars, hi]
          have hdig : isDig c = true := h2 c (by rw [hct]; exact List.mem_cons_self c t)
          obtain ⟨b1, b2, b3, b4, b5, b6, b7, _, _, _, _⟩ := isDig_branches c hdig
          rw [hd, hct, List.cons_append, readVal_succ_cons]
          simp only [b1, b2, b3, b4, b5, b6, b7, Bool.false_eq_true, if_false, hdig, if_true]
          have hback : c :: (t ++ rest) = natChars i.natAbs ++ rest := by
            rw [hct]
            rfl
          rw [hback, readNat_natChars i.natAbs rest hrest]
          simp only [Option.map_some']
          have : (i.natAbs : Int) = i := by omega
          rw [this]
      | jstr s =>
        rw [show dumps (.jstr s) = '"' :: (s.flatMap escChar ++ ['"']) from rfl,
          List.cons_append, readVal_succ_cons]
        simp only [show (('"' : Char) == 'n') = false from rfl,
          show (('"' : Char) == 't') = false from rfl,
          show (('"' : Char) == 'f') = false from rfl,
          show (('"' : Char) == '"') = true from rfl,
          Bool.false_eq_true, if_false, if_true]
        have hr : (s.flatMap escChar ++ ['"']) ++ rest = s.flatMap escChar ++ ('"' :: rest) := by
          simp
        rw [hr, strBody_strLit s _ ?_ rest]
        · rfl
        · have hfb := length_le_flatMap_escChar s
          simp only [List.length_append, List.length_cons, List.length_nil]
          omega
      | jarr es =>
        rw [show dumps (.jarr es) = '[' :: (dumpsItems es ++ [']']) from rfl,
          List.cons_append, readVal_succ_cons]
        simp only [show (('[' : Char) == 'n') = false from rfl,
          show (('[' : Char) == 't') = false from rfl,
          show (('[' : Char) == 'f') = false from rfl,
          show (('[' : Char) == '"') = false from rfl,
          show (('[' : Char) == '[') = true from rfl,
          Bool.false_eq_true, if_false, if_true]
        cases es with
        | nil =>
          have hl : (dumpsItems [] ++ [']']) ++ rest = ']' :: rest := by
            simp [dumpsItems]
          rw [hl, skipWs_not _ _ (by decide)]
          dsimp only
          simp only [show ((']' : Char) == ']') = true from rfl, if_true]
        | cons e es' =>
          obtain ⟨u, hu⟩ : ∃ u, dumpsItems (e :: es') = dumps e ++ u := by
            cases es' with
            | nil => exact ⟨[], by simp [dumpsItems]⟩
            | cons e2 es2 => exact ⟨',' :: ' ' :: dumpsItems (e2 :: es2), rfl⟩
          obtain ⟨c, t, hct, hws, hrb⟩ := dumps_head e
          have hlist : (dumpsItems (e :: es') ++ [']']) ++ rest = c :: (t ++ (u ++ (']' :: rest))) := by
            rw [hu, hct]
            simp
          rw [hlist, skipWs_not _ _ hws]
          dsimp only
          simp only [hrb, Bool.false_eq_true, if_false]
          have hback : c :: (t ++ (u ++ (']' :: rest))) = dumpsItems (e :: es') ++ (']' :: rest) := by
            rw [hu, hct]
            simp
          have hfl2 : (dumpsItems (e :: es')).length + 1 ≤ f := by
            rw [show dumps (.jarr (e :: es')) = '[' :: (dumpsItems (e :: es') ++ [']']) from rfl] at hfl
            simp only [List.length_cons, List.length_append, List.length_nil] at hfl
            omega
          rw [hback, ihi (e :: es') rest hwf (by simp) hfl2]
          rfl
      | jobj ps =>
        rw [show dumps (.jobj ps) = '{' :: (dumpsPairs ps ++ ['}']) from rfl,
          List.cons_append, readVal_succ_cons]
        simp only [show (('{' : Char) == 'n') = false from rfl,
          show (('{' : Char) == 't') = false from rfl,
          show (('{' : Char) == 'f') = false from rfl,
          show (('{' : Char) == '"') = false from rfl,
          show (('{' : Char) == '[') = false from rfl,
          show (('{' : Char) == '{') = true from rfl,
          Bool.false_eq_true, if_false, if_true]
        cases ps with
        | nil =>
          have hl : (dumpsPairs [] ++ ['}']) ++ rest = '}' :: rest := by
            simp [dumpsPairs]
          rw [hl, skipWs_not _ _ (by decide)]
          dsimp only
          simp only [show (('}' : Char) == '}') = true from rfl, if_true]
        | cons p ps' =>
          have h2 : (noDupKeys ((p :: ps').map (fun q => q.1)) && wfMembers (p :: ps')) = true := hwf
          rw [Bool.and_eq_true] at h2
          obtain ⟨hnd, hwm⟩ := h2
          obtain ⟨u, hu⟩ : ∃ u, dumpsPairs (p :: ps') = strLit p.1 ++ u := by
            cases ps' with
            | nil => exact ⟨':' :: ' ' :: dumps p.2, rfl⟩
            | cons p2 ps2 =>
              refine ⟨':' :: ' ' :: (dumps p.2 ++ ',' :: ' ' :: dumpsPairs (p2 :: ps2)), ?_⟩
              simp [dumpsPairs]
          have hlist : (dumpsPairs (p :: ps') ++ ['}']) ++ rest =
              '"' :: ((p.1.flatMap escChar ++ ['"']) ++ (u ++ ('}' :: rest))) := by
            rw [hu, show strLit p.1 = '"' :: (p.1.flatMap escChar ++ ['"']) from rfl]
            simp
          rw [hlist, skipWs_not _ _ (by decide)]
          dsimp only
          simp only [show (('"' : Char) == '}') = false from rfl, Bool.false_eq_true, if_false]
          have hback : '"' :: ((p.1.flatMap escChar ++ ['"']) ++ (u ++ ('}' :: rest))) =
              dumpsPairs (p :: ps') ++ ('}' :: rest) := by
            rw [hu, show strLit p.1 = '"' :: (p.1.flatMap escChar ++ ['"']) from rfl]
            simp
          have hfl2 : (dumpsPairs (p :: ps')).length + 1 ≤ f := by
            rw [show dumps (.jobj (p :: ps')) = '{' :: (dumpsPairs (p :: ps') ++ ['}']) from rfl] at hfl
            simp only [List.length_cons, List.length_append, List.length_nil] at hfl
            omega
          rw [hback, ihp (p :: ps') rest hwm (by simp) hfl2]
          simp only [Option.map_some']
          rw [pyDictOf_id (p :: ps') hnd]
    · intro es rest hwf hne hfl
      cases es with
      | nil => exact absurd rfl hne
      | cons e es' =>
        rw [readItems_succ]
        have h2 : (wfVal e && wfItems es') = true := hwf
        rw [Bool.and_eq_true] at h2
        obtain ⟨hwe, hwes⟩ := h2
        cases es' with
        | nil =>
          have hl : dumpsItems [e] ++ (']' :: rest) = dumps e ++ (']' :: rest) := by
            simp [dumpsItems]
          rw [hl, skipWs_dumps e (']' :: rest)]
          have hb1 : (dumps e).length ≤ f := by
            rw [show dumpsItems [e] = dumps e from rfl] at hfl
            omega
          rw [ihv e (']' :: rest) hwe hb1 (by rfl)]
          simp only [Option.bind_eq_bind, Option.some_bind]
          rw [skipWs_not _ _ (by decide)]
          rfl
        | cons e2 es2 =>
          have hd : dumpsItems (e :: e2 :: es2) ++ (']' :: rest) =
              dumps e ++ (',' :: ' ' :: (dumpsItems (e2 :: es2) ++ (']' :: rest))) := by
            rw [show dumpsItems (e :: e2 :: es2) = dumps e ++ ',' :: ' ' :: dumpsItems (e2 :: es2) from rfl]
            simp
          have hlen : (dumpsItems (e :: e2 :: es2)).length =
              (dumps e).length + 2 + (dumpsItems (e2 :: es2)).length := by
            rw [show dumpsItems (e :: e2 :: es2) = dumps e ++ ',' :: ' ' :: dumpsItems (e2 :: es2) from rfl]
            simp only [List.length_append, List.length_cons, List.length_nil]
            omega
          rw [hd, skipWs_dumps e _]
          rw [ihv e _ hwe (by omega) (by rfl)]
          simp only [Option.bind_eq_bind, Option.some_bind]
          rw [skipWs_not _ _ (by decide)]
          show Option.map (fun k => (e :: k.1, k.2))
            (readItems f (' ' :: (dumpsItems (e2 :: es2) ++ (']' :: rest)))) =
            some (e :: e2 :: es2, rest)
          rw [readItems_skip, ihi (e2 :: es2) rest hwes (by simp) (by omega)]
          rfl
    · intro ps rest hwf hne hfl
      cases ps with
      | nil => exact absurd rfl hne
      | cons p ps' =>
        have h2 : (wfVal p.2 && wfMembers ps') = true := hwf
        rw [Bool.and_eq_true] at h2
        obtain ⟨hwp, hwps⟩ := h2
        have hkb := length_le_flatMap_escChar p.1
        cases ps' with
        | nil =>
          have hl : dumpsPairs [p] ++ ('}' :: rest) =
              '"' :: (p.1.flatMap escChar ++ ('"' :: (':' :: ' ' :: (dumps p.2 ++ ('}' :: rest))))) := by
            rw [show dumpsPairs [p] = strLit p.1 ++ ':' :: ' ' :: dumps p.2 from rfl,
              show strLit p.1 = '"' :: (p.1.flatMap escChar ++ ['"']) from rfl]
            simp
          rw [hl, readPairs_quote]
          rw [strBody_strLit p.1 _ ?_ (':' :: ' ' :: (dumps p.2 ++ ('}' :: rest)))]
          · simp only [Option.bind_eq_bind, Option.some_bind]
            rw [skipWs_not _ _ (by decide)]
            show (do
              let (v, r3) ← readVal f (skipWs (' ' :: (dumps p.2 ++ ('}' :: rest))))
              match skipWs r3 with
              | ',' :: r4 => (readPairs f r4).map (fun k => ((p.1, v) :: k.1, k.2))
              | '}' :: r4 => some ([(p.1, v)], r4)
              | _ => none) = some ([p], rest)
            rw [skipWs_space, skipWs_dumps p.2 _]
            have hb1 : (dumps p.2).length ≤ f := by
              rw [show dumpsPairs [p] = strLit p.1 ++ ':' :: ' ' :: dumps p.2 from rfl] at hfl
              simp only [List.length_append, List.length_cons, List.length_nil] at hfl
              omega
            rw [ihv p.2 _ hwp hb1 (by rfl)]
            simp only [Option.bind_eq_bind, Option.some_bind]
            rw [skipWs_not _ _ (by decide)]
            rfl
          · simp only [List.length_append, List.length_cons, List.length_nil]
            omega
        | cons p2 ps2 =>
          have hexp : dumpsPairs (p :: p2 :: ps2) =
              strLit p.1 ++ (':' :: ' ' :: (dumps p.2 ++ (',' :: ' ' :: dumpsPairs (p2 :: ps2)))) := by
            rw [show dumpsPairs (p :: p2 :: ps2) =
              strLit p.1 ++ ':' :: ' ' :: dumps p.2 ++ ',' :: ' ' :: dumpsPairs (p2 :: ps2) from rfl]
            simp
          have hl : dumpsPairs (p :: p2 :: ps2) ++ ('}' :: rest) =
              '"' :: (p.1.flatMap escChar ++ ('"' :: (':' :: ' ' ::
                (dumps p.2 ++ (',' :: ' ' :: (dumpsPairs (p2 :: ps2) ++ ('}' :: rest)))))))  := by
            rw [hexp, show strLit p.1 = '"' :: (p.1.flatMap escChar ++ ['"']) from rfl]
            simp
          have hlen : (dumpsPairs (p :: p2 :: ps2)).length =
              (p.1.flatMap escChar).length + 4 + (dumps p.2).length + 2 +
                (dumpsPairs (p2 :: ps2)).length := by
            rw [hexp, show strLit p.1 = '"' :: (p.1.flatMap escChar ++ ['"']) from rfl]
            simp only [List.length_append, List.length_cons, List.length_nil]
            omega
          rw [hl, readPairs_quote]
          rw [strBody_strLit p.1 _ ?_
            (':' :: ' ' :: (dumps p.2 ++ (',' :: ' ' :: (dumpsPairs (p2 :: ps2) ++ ('}' :: rest)))))]
          · simp only [Option.bind_eq_bind, Option.some_bind]
            rw [skipWs_not _ _ (by decide)]
            show (do
              let (v, r3) ← readVal f
                (skipWs (' ' :: (dumps p.2 ++ (',' :: ' ' :: (dumpsPairs (p2 :: ps2) ++ ('}' :: rest))))))
              match skipWs r3 with
              | ',' :: r4 => (readPairs f r4).map (fun k => ((p.1, v) :: k.1, k.2))
              | '}' :: r4 => some ([(p.1, v)], r4)
              | _ => none) = some (p :: p2 :: ps2, rest)
            rw [skipWs_space, skipWs_dumps p.2 _]
            rw [ihv p.2 _ hwp (by omega) (by rfl)]
            simp only [Option.bind_eq_bind, Option.some_bind]
            rw [skipWs_not _ _ (by decide)]
            show (readPairs f (' ' :: (dumpsPairs (p2 :: ps2) ++ ('}' :: rest)))).map
              (fun k => ((p.1, p.2) :: k.1, k.2)) = some (p :: p2 :: ps2, rest)
            rw [readPairs_skip, ihp (p2 :: ps2) rest hwps (by simp) (by omega)]
            rfl
          · simp only [List.length_append, List.length_cons, List.length_nil]
            omega

/-- `'\n'` is no lowercase hex digit. -/
theorem nl_ne_hexDig (k : Nat) (h : k < 16) : (('\n' : Char) = hexDig k) → False := by
  interval_cases k <;> decide

/-- `\uXXXX` escapes contain no newline. -/
theorem uEsc_no_nl (n : Nat) (h : ('\n' : Char) ∈ uEsc n) : False := by
  simp only [uEsc, List.mem_cons] at h
  rcases h with h | h | h | h | h | h
  · exact absurd h (by decide)
  · exact absurd h (by decide)
  · exact nl_ne_hexDig (n / 4096 % 16) (Nat.mod_lt _ (by norm_num)) h
  · exact nl_ne_hexDig (n / 256 % 16) (Nat.mod_lt _ (by norm_num)) h
  · exact nl_ne_hexDig (n / 16 % 16) (Nat.mod_lt _ (by norm_num)) h
  · rcases h with h | h
    · exact nl_ne_hexDig (n % 16) (Nat.mod_lt _ (by norm_num)) h
    · exact absurd h (by decide)

/-- `escChar` emits no newline. -/
theorem escChar_no_nl (c : Char) (hmem : ('\n' : Char) ∈ escChar c) : False := by
  by_cases hq : c = '"'
  · rw [hq] at hmem; exact absurd hmem (by decide)
  by_cases hb : c = '\\'
  · rw [hb] at hmem; exact absurd hmem (by decide)
  by_cases hn : c = '\n'
  · rw [hn] at hmem; exact absurd hmem (by decide)
  by_cases hr : c = '\r'
  · rw [hr] at hmem; exact absurd hmem (by decide)
  by_cases ht : c = '\t'
  · rw [ht] at hmem; exact absurd hmem (by decide)
  by_cases h8 : c.toNat = 8
  · have h : Char.ofNat 8 = c := by rw [← h8]; exact Char.ofNat_toNat c
    rw [← h] at hmem; exact absurd hmem (by decide)
  by_cases h12 : c.toNat = 12
  · have h : Char.ofNat 12 = c := by rw [← h12]; exact Char.ofNat_toNat c
    rw [← h] at hmem; exact absurd hmem (by decide)
  have eq1 : (c == '"') = false := beq_eq_false_iff_ne.mpr hq
  have eq2 : (c == '\\') = false := beq_eq_false_iff_ne.mpr hb
  have eq3 : (c == '\n') = false := beq_eq_false_iff_ne.mpr hn
  have eq4 : (c == '\r') = false := beq_eq_false_iff_ne.mpr hr
  have eq5 : (c == '\t') = false := beq_eq_false_iff_ne.mpr ht
  have eq8 : (c.toNat == 8) = false := by simp [h8]
  have eq12 : (c.toNat == 12) = false := by simp [h12]
  by_cases hp : 32 ≤ c.toNat ∧ c.toNat ≤ 126
  · have hesc : escChar c = [c] := by
      simp only [escChar, eq1, eq2, eq3, eq4, eq5, eq8, eq12,
        Bool.false_eq_true, if_false, if_pos hp]
    rw [hesc, List.mem_singleton] at hmem
    rw [← hmem] at hp
    exact absurd hp (by decide)
  by_cases h16 : c.toNat < 65536
  · have hesc : escChar c = uEsc c.toNat := by
      simp only [escChar, eq1, eq2, eq3, eq4, eq5, eq8, eq12,
        Bool.false_eq_true, if_false]
      rw [if_neg hp, if_pos h16]
    rw [hesc] at hmem
    exact uEsc_no_nl _ hmem
  · have hesc : escChar c =
        uEsc (55296 + (c.toNat - 65536) / 1024) ++ uEsc (56320 + (c.toNat - 65536) % 1024) := by
      simp only [escChar, eq1, eq2, eq3, eq4, eq5, eq8, eq12,
        Bool.false_eq_true, if_false]
      rw [if_neg hp, if_neg h16]
    rw [hesc] at hmem
    rcases List.mem_append.mp hmem with h | h
    · exact uEsc_no_nl _ h
    · exact uEsc_no_nl _ h

/-- String literals contain no newline. -/
theorem strLit_no_nl (s : List Char) (h : ('\n' : Char) ∈ strLit s) : False := by
  simp only [strLit, List.mem_cons, List.mem_append] at h
  rcases h with h | h | h
  · exact absurd h (by decide)
  · obtain ⟨c, _, hc⟩ := List.mem_flatMap.mp h
    exact escChar_no_nl c hc
  · exact absurd h (by decide)

/-- Serialised integers contain no newline. -/
theorem intChars_no_nl (i : Int) (h : ('\n' : Char) ∈ intChars i) : False := by
  simp only [intChars, List.mem_append] at h
  rcases h with h | h
  · split at h
    · exact absurd h (by decide)
    · exact absurd h (by decide)
  · obtain ⟨_, h2⟩ := natChars_facts i.natAbs
    have := h2 _ h
    have hb := isDig_toNat _ this
    have : Char.toNat '\n' = 10 := by decide
    omega

mutual
/-- Serialised values contain no newline, so one record is one line. -/
theorem dumps_no_nl : ∀ (j : PyJson), ('\n' : Char) ∈ dumps j → False
  | .jnull, h => absurd h (by decide)
  | .jbool true, h => absurd h (by decide)
  | .jbool false, h => absurd h (by decide)
  | .jint i, h => intChars_no_nl i h
  | .jstr s, h => strLit_no_nl s h
  | .jarr es, h => by
    rw [show dumps (.jarr es) = '[' :: (dumpsItems es ++ [']']) from rfl] at h
    rcases List.mem_cons.mp h with h | h
    · exact absurd h (by decide)
    rcases List.mem_append.mp h with h | h
    · exact dumpsItems_no_nl es h
    · exact absurd h (by decide)
  | .jobj ps, h => by
    rw [show dumps (.jobj ps) = '{' :: (dumpsPairs ps ++ ['}']) from rfl] at h
    rcases List.mem_cons.mp h with h | h
    · exact absurd h (by decide)
    rcases List.mem_append.mp h with h | h
    · exact dumpsPairs_no_nl ps h
    · exact absurd h (by decide)
theorem dumpsItems_no_nl : ∀ (es : List PyJson), ('\n' : Char) ∈ dumpsItems es → False
  | [], h => absurd h (by decide)
  | [e], h => dumps_no_nl e (by rwa [show dumpsItems [e] = dumps e from rfl] at h)
  | e :: e2 :: es, h => by
    rw [show dumpsItems (e :: e2 :: es) = dumps e ++ ',' :: ' ' :: dumpsItems (e2 :: es) from rfl] at h
    rcases List.mem_append.mp h with h | h
    · exact dumps_no_nl e h
    rcases List.mem_cons.mp h with h | h
    · exact absurd h (by decide)
    rcases List.mem_cons.mp h with h | h
    · exact absurd h (by decide)
    · exact dumpsItems_no_nl (e2 :: es) h
theorem dumpsPairs_no_nl : ∀ (ps : List (List Char × PyJson)), ('\n' : Char) ∈ dumpsPairs ps → False
  | [], h => absurd h (by decide)
  | [p], h => by
    rw [show dumpsPairs [p] = strLit p.1 ++ ':' :: ' ' :: dumps p.2 from rfl] at h
    rcases List.mem_append.mp h with h | h
    · exact strLit_no_nl p.1 h
    rcases List.mem_cons.mp h with h | h
    · exact absurd h (by decide)
    rcases List.mem_cons.mp h with h | h
    · exact absurd h (by decide)
    · exact dumps_no_nl p.2 h
  | p :: p2 :: ps, h => by
    rw [show dumpsPairs (p :: p2 :: ps) =
      strLit p.1 ++ ':' :: ' ' :: dumps p.2 ++ ',' :: ' ' :: dumpsPairs (p2 :: ps) from rfl] at h
    rcases List.mem_append.mp h with h | h
    · rcases List.mem_append.mp h with h | h
      · exact strLit_no_nl p.1 h
      rcases List.mem_cons.mp h with h | h
      · exact absurd h (by decide)
      rcases List.mem_cons.mp h with h | h
      · exact absurd h (by decide)
      · exact dumps_no_nl p.2 h
    · rcases List.mem_cons.mp h with h | h
      · exact absurd h (by decide)
      rcases List.mem_cons.mp h with h | h
      · exact absurd h (by decide)
      · exact dumpsPairs_no_nl (p2 :: ps) h
end

/-- A digit is not Python whitespace. -/
theorem isDig_not_pySpace (c : Char) (h : isDig c = true) : isPySpace c = false := by
  obtain ⟨h1, h2⟩ := isDig_toNat c h
  simp only [isPySpace, Bool.or_eq_false_iff]
  refine ⟨⟨⟨⟨⟨?_, ?_⟩, ?_⟩, ?_⟩, ?_⟩, ?_⟩ <;>
    (apply char_beq_false; first
      | (have : Char.toNat ' ' = 32 := (by decide); omega)
      | (have : Char.toNat '\t' = 9 := (by decide); omega)
      | (have : Char.toNat '\n' = 10 := (by decide); omega)
      | (have : Char.toNat '\r' = 13 := (by decide); omega)
      | (have : Char.toNat '\x0b' = 11 := (by decide); omega)
      | (have : Char.toNat '\x0c' = 12 := (by decide); omega))

/-- `dumps` output starts with a non-whitespace character (Python strip). -/
theorem dumps_headPy (j : PyJson) :
    ∃ c t, dumps j = c :: t ∧ isPySpace c = false := by
  cases j with
  | jnull => exact ⟨'n', _, rfl, by decide⟩
  | jbool b =>
    cases b
    · exact ⟨'f', _, rfl, by decide⟩
    · exact ⟨'t', _, rfl, by decide⟩
  | jint i =>
    by_cases hi : i < 0
    · refine ⟨'-', natChars i.natAbs, ?_, by decide⟩
      simp [dumps, intChars, hi]
    · obtain ⟨h1, h2⟩ := natChars_facts i.natAbs
      obtain ⟨c, t, hct⟩ : ∃ c t, natChars i.natAbs = c :: t := by
        cases h : natChars i.natAbs with
        | nil => exact absurd h h1
        | cons c t => exact ⟨c, t, rfl⟩
      have hd : isDig c = true := h2 c (by rw [hct]; exact List.mem_cons_self c t)
      refine ⟨c, t, ?_, isDig_not_pySpace c hd⟩
      simp [dumps, intChars, hi, hct]
  | jstr s => exact ⟨'"', _, rfl, by decide⟩
  | jarr es => exact ⟨'[', _, rfl, by decide⟩
  | jobj ps => exact ⟨'{', _, rfl, by decide⟩

/-- `dumps` output ends with a non-whitespace character (Python strip). -/
theorem dumps_lastPy (j : PyJson) :
    ∃ c, (dumps j).getLast? = some c ∧ isPySpace c = false := by
  cases j with
  | jnull => exact ⟨'l', rfl, by decide⟩
  | jbool b =>
    cases b
    · exact ⟨'e', rfl, by decide⟩
    · exact ⟨'e', rfl, by decide⟩
  | jint i =>
    obtain ⟨h1, h2⟩ := natChars_facts i.natAbs
    cases hl : (natChars i.natAbs).getLast? with
    | none => exact absurd (List.getLast?_eq_none_iff.mp hl) h1
    | some c =>
      have hmem : c ∈ natChars i.natAbs := List.mem_of_mem_getLast? hl
      have hd : isDig c = true := h2 c hmem
      refine ⟨c, ?_, isDig_not_pySpace c hd⟩
      rw [show dumps (.jint i) = (if i < 0 then ['-'] else []) ++ natChars i.natAbs from rfl]
      rw [List.getLast?_append_of_ne_nil _ h1]
      exact hl
  | jstr s =>
    refine ⟨'"', ?_, by decide⟩
    rw [show dumps (.jstr s) = ('"' :: s.flatMap escChar) ++ ['"'] from by
      rw [show dumps (.jstr s) = '"' :: (s.flatMap escChar ++ ['"']) from rfl]; simp]
    exact List.getLast?_concat _
  | jarr es =>
    refine ⟨']', ?_, by decide⟩
    rw [show dumps (.jarr es) = ('[' :: dumpsItems es) ++ [']'] from by
      rw [show dumps (.jarr es) = '[' :: (dumpsItems es ++ [']']) from rfl]; simp]
    exact List.getLast?_concat _
  | jobj ps =>
    refine ⟨'}', ?_, by decide⟩
    rw [show dumps (.jobj ps) = ('{' :: dumpsPairs ps) ++ ['}'] from by
      rw [show dumps (.jobj ps) = '{' :: (dumpsPairs ps ++ ['}']) from rfl]; simp]
    exact List.getLast?_concat _

/-- `str.strip()` leaves a string with non-whitespace ends unchanged. -/
theorem stripChars_id (cs : List Char)
    (h1 : ∀ c, cs.head? = some c → isPySpace c = false)
    (h2 : ∀ c, cs.getLast? = some c → isPySpace c = false) :
    stripChars cs = cs := by
  unfold stripChars
  cases cs with
  | nil => rfl
  | cons c t =>
    rw [List.dropWhile_cons, h1 c rfl]
    simp only [Bool.false_eq_true, if_false]
    obtain ⟨l, m, hrev⟩ : ∃ l m, (c :: t).reverse = l :: m := by
      cases hr : (c :: t).reverse with
      | nil => exact absurd (List.reverse_eq_nil_iff.mp hr) (by simp)
      | cons l m => exact ⟨l, m, rfl⟩
    have hlast : (c :: t).getLast? = some l := by
      rw [← List.head?_reverse, hrev]
      rfl
    rw [hrev, List.dropWhile_cons, h2 l hlast]
    simp only [Bool.false_eq_true, if_false]
    rw [← hrev, List.reverse_reverse]

/-- `takeWhile` keeps a newline-free prefix in full and stops at the
terminator. -/
theorem takeWhile_line (xs : List Char) (h : ∀ c ∈ xs, (c != '\n') = true) (ys : List Char) :
    (xs ++ '\n' :: ys).takeWhile (fun ch => ch != '\n') = xs := by
  induction xs with
  | nil => simp [List.takeWhile_cons]
  | cons c t ih =>
    rw [List.cons_append, List.takeWhile_cons, h c (List.mem_cons_self c t)]
    rw [ih (fun d hd => h d (List.mem_cons_of_mem c hd))]
    simp

/-- `loads` undoes `dumps` on well-formed values. -/
theorem loads_dumps (j : PyJson) (hwf : wfVal j = true) : loads (dumps j) = some j := by
  unfold loads
  have hsw : skipWs (dumps j) = dumps j := by
    have h := skipWs_dumps j []
    simpa using h
  rw [hsw]
  have hrt := (readVal_dumps_fuel ((dumps j).length + 1)).1 j [] hwf (by omega) (by rfl)
  rw [show dumps j ++ ([] : List Char) = dumps j from by simp] at hrt
  rw [hrt]
  rfl

/-- Defining equation of `read_request` on a non-empty stream. -/
theorem read_request_cons (c : Char) (S : List Char) :
    read_request (c :: S) =
      (loads (stripChars ((c :: S).takeWhile (fun ch => ch != '\n'))),
       match (c :: S).drop ((c :: S).takeWhile (fun ch => ch != '\n')).length with
       | '\n' :: r => r
       | r => r) := rfl

/-- Reading back one serialised record: the parsed value and the stream
position after its newline. -/
theorem read_request_send_response (j : PyJson) (tail : List Char) (hwf : wfVal j = true) :
    read_request (send_response j ++ tail) = (some j, tail) := by
  obtain ⟨c, t, hct, _⟩ := dumps_headPy j
  have hstream : send_response j ++ tail = c :: (t ++ ('\n' :: tail)) := by
    rw [show send_response j = dumps j ++ ['\n'] from rfl, hct]
    simp
  rw [hstream, read_request_cons]
  have hmemnl : ∀ d ∈ dumps j, (d != '\n') = true := by
    intro d hd
    rw [bne_iff_ne]
    intro he
    exact dumps_no_nl j (he ▸ hd)
  have hline : (c :: (t ++ ('\n' :: tail))).takeWhile (fun ch => ch != '\n') = dumps j := by
    rw [show c :: (t ++ ('\n' :: tail)) = (c :: t) ++ ('\n' :: tail) from rfl, ← hct]
    exact takeWhile_line (dumps j) hmemnl tail
  rw [hline]
  have hdrop : (c :: (t ++ ('\n' :: tail))).drop (dumps j).length = '\n' :: tail := by
    rw [show c :: (t ++ ('\n' :: tail)) = (c :: t) ++ ('\n' :: tail) from rfl, ← hct]
    exact List.drop_left _ _
  rw [hdrop]
  have hstrip : stripChars (dumps j) = dumps j := by
    apply stripChars_id
    · intro d hd
      obtain ⟨c2, t2, hct2, hps2⟩ := dumps_headPy j
      rw [hct2] at hd
      cases hd
      exact hps2
    · intro d hd
      obtain ⟨c2, hcl2, hps2⟩ := dumps_lastPy j
      rw [hcl2] at hd
      cases hd
      exact hps2
  rw [hstrip, loads_dumps j hwf]
  rfl

/-- C3: for every well-formed control message — a JSON mapping, with the
distinct keys a Python dict guarantees at every level — writing it with
`send_response` (one JSON record plus a single newline terminator) and
reading it back with `read_request` yields exactly the original message,
and leaves the stream positioned just past the newline. -/
theorem control_message_roundtrip (ps : List (List Char × PyJson)) (tail : List Char)
    (hwf : wfVal (.jobj ps) = true) :
    read_request (send_response (.jobj ps) ++ tail) = (some (.jobj ps), tail) :=
  read_request_send_response (.jobj ps) tail hwf

/-- The round-trip at a concrete message: the method-close record with id 7
followed by further bytes on the stream. -/
theorem control_message_roundtrip_witness :
    wfVal (.jobj [("method".data, .jstr "close".data), ("id".data, .jint 7)]) = true ∧
    read_request (send_response
        (.jobj [("method".data, .jstr "close".data), ("id".data, .jint 7)]) ++ "zz".data) =
      (some (.jobj [("method".data, .jstr "close".data), ("id".data, .jint 7)]), "zz".data) :=
  ⟨by decide,
   control_message_roundtrip [("method".data, .jstr "close".data), ("id".data, .jint 7)]
     "zz".data (by decide)⟩
